import Mathlib

/-!
# Map viewer input handlers (`map-viewer/main.cpp`)

A shallow embedding of the event handlers of the OsmAnd map viewer: the globals of
`main.cpp` become the fields of `Viewer`, every GLUT callback becomes a function on
`Viewer`, and the render engine (`OsmAnd::IMapRenderer`, outside this source file) is a
record holding its configuration together with the log of the setter calls it received.

Conventions of the embedding:

* `int32_t` values are integers reduced by `wrap32` after every operation;
* a finite `float` or `double` value is the rational number it stands for, and every
  floating operation is the exact operation followed by the rounding of its type (`fl32`,
  `fl64`: to nearest, ties to even); a `double` that is an infinity or a NaN is
  `DoubleValue.notFinite`;
* a conversion to `int32_t` of a value that is not finite or lies outside the range gives
  `INT_MIN`, the result of the conversion instruction on the x86 targets of the viewer;
* `cosf`, `sinf` and `qDegreesToRadians` are library functions and come in as parameters;
* `glutGetModifiers()` is the handler's `modifiers` argument.
-/

set_option linter.unusedVariables false

namespace MapViewer

/-! ## Machine numbers -/

/-- Two's-complement reduction of an integer to the range of `int32_t`. -/
def wrap32 (v : Int) : Int := (v + 2147483648) % 4294967296 - 2147483648

/-- Range of `int32_t`. -/
def isInt32 (v : Int) : Prop := -2147483648 ≤ v ∧ v < 2147483648

instance (v : Int) : Decidable (isInt32 v) := by unfold isInt32; infer_instance

/-- Integer part of a number, rounding toward zero: what `static_cast` to an integer type
does with a floating value. -/
def truncQ (q : ℚ) : Int := if 0 ≤ q then ⌊q⌋ else ⌈q⌉

/-- Conversion `static_cast<int32_t>(v)` of a finite floating value: the integer part,
rounding toward zero. When the integer part is beyond the range of `int32_t` (a case the
language leaves open) the result is `INT_MIN`, as the conversion instruction gives it. -/
def toInt32 (q : ℚ) : Int := if isInt32 (truncQ q) then truncQ q else -2147483648

/-- Shift `a << k` on `unsigned` (32 bits). For a count outside `0..31` the count is
taken modulo 32. -/
def shlU32 (a : Nat) (k : Int) : Nat := (a * 2 ^ (k % 32).toNat) % 4294967296

/-- Shift `a << k` on `int` (32 bits). For a count outside `0..31` the count is taken
modulo 32. -/
def shlI32 (a : Int) (k : Int) : Int := wrap32 (a * 2 ^ (k % 32).toNat)

/-- Integer nearest to a number, a tie going to the even neighbour. -/
def nearestEven (q : ℚ) : Int :=
  if q - ⌊q⌋ < 1 / 2 then ⌊q⌋
  else if 1 / 2 < q - ⌊q⌋ then ⌊q⌋ + 1
  else if ⌊q⌋ % 2 = 0 then ⌊q⌋ else ⌊q⌋ + 1

/-- Rounding to the nearest integer, ties to even, on sign and magnitude. -/
def roundHalfEven (q : ℚ) : Int := if 0 ≤ q then nearestEven q else -nearestEven (-q)

/-- Rounding of a number to `p` significant binary digits, to nearest, ties to even: the
number is measured in units of the last place of its binade and that measure is rounded.
The exponent range is not bounded: the handlers add and subtract floats, multiply a float
of magnitude at most one by an integer, and divide and multiply in `double` values that
come from floats, so no result overflows and a result below the normal range is exact. -/
def roundToPrecision (p : Nat) (q : ℚ) : ℚ :=
  if q = 0 then 0
  else roundHalfEven (q / 2 ^ (Int.log 2 |q| - (p - 1))) * 2 ^ (Int.log 2 |q| - (p - 1))

/-- Rounding of an exact result to `float` (binary32, 24 significant bits). -/
def fl32 (q : ℚ) : ℚ := roundToPrecision 24 q

/-- Rounding of an exact result to `double` (binary64, 53 significant bits). -/
def fl64 (q : ℚ) : ℚ := roundToPrecision 53 q

/-- Value of type `double` in `mouseMotion`: a finite number, or a value that is not
finite (an infinity or a NaN; the two need not be told apart, a product of either with a
finite factor is again not finite and both convert to the same integer). -/
inductive DoubleValue
  | finite (q : ℚ)
  | notFinite

/-- Division `a / b` in `double` of finite operands: the rounded quotient, and for a zero
divisor an infinity (or a NaN when `a` is zero too). -/
def fdiv (a b : ℚ) : DoubleValue :=
  if b = 0 then DoubleValue.notFinite else DoubleValue.finite (fl64 (a / b))

/-- Product in `double` of a finite factor (a `float` promoted to `double`) and a `double`
value. -/
def DoubleValue.mul (a : ℚ) : DoubleValue → DoubleValue
  | DoubleValue.finite b => DoubleValue.finite (fl64 (a * b))
  | DoubleValue.notFinite => DoubleValue.notFinite

/-- Conversion `static_cast<int32_t>(v)` of a `double`. -/
def DoubleValue.toInt32 : DoubleValue → Int
  | DoubleValue.finite q => MapViewer.toInt32 q
  | DoubleValue.notFinite => -2147483648

/-- Library functions used by `mouseMotion` (`<cmath>` and Qt), passed as parameters: each
takes and returns a `float`. -/
structure Libm where
  qDegreesToRadians : ℚ → ℚ
  cosf : ℚ → ℚ
  sinf : ℚ → ℚ

/-! ## GLUT constants (`freeglut_std.h`) -/

def GLUT_LEFT_BUTTON : Int := 0
def GLUT_DOWN : Int := 0
def GLUT_UP : Int := 1
def GLUT_ACTIVE_SHIFT : Nat := 1
def GLUT_ACTIVE_ALT : Nat := 4
def GLUT_KEY_LEFT : Int := 100
def GLUT_KEY_UP : Int := 101
def GLUT_KEY_RIGHT : Int := 102
def GLUT_KEY_DOWN : Int := 103

/-! ## Data model -/

/-- Point `OsmAnd::PointI`: two `int32_t` coordinates. -/
structure PointI where
  x : Int
  y : Int
deriving DecidableEq, Repr

/-- Both coordinates are `int32_t` values. -/
def PointI.valid (p : PointI) : Prop := isInt32 p.x ∧ isInt32 p.y

instance (p : PointI) : Decidable p.valid := by unfold PointI.valid; infer_instance

/-- Rectangle `OsmAnd::AreaI`. -/
structure AreaI where
  top : Int
  left : Int
  bottom : Int
  right : Int
deriving DecidableEq, Repr

/-- Layers `OsmAnd::IMapRenderer::TileLayerId` named by the viewer. -/
inductive TileLayerId
  | RasterMap
  | MapOverlay0
  | ElevationData
deriving DecidableEq, Repr

/-- Tile providers the viewer constructs: `createCycleMapProvider()`,
`createMapnikProvider()` (both then given the current directory as local cache path) and
`HeightmapTileProvider`. -/
inductive TileProvider
  | CycleMap
  | Mapnik
  | Heightmap
deriving DecidableEq, Repr

/-- Fields of `renderer->configuration` read by the viewer. -/
structure Configuration where
  target31 : PointI
  requestedZoom : ℚ
  zoomBase : Int
  zoomFraction : ℚ
  azimuth : ℚ
  elevationAngle : ℚ
  fogDistance : ℚ
  fogDensity : ℚ
  fogOriginFactor : ℚ
  fieldOfView : ℚ
  heightScaleFactor : ℚ
  heightmapPatchesPerSide : Int
  textureAtlasesAllowed : Bool
  tileProviders : TileLayerId → Option TileProvider

/-- Setter calls the viewer issues on the render engine. -/
inductive EngineCall
  | setTarget (p : PointI)
  | setZoom (z : ℚ)
  | setAzimuth (a : ℚ)
  | setElevationAngle (a : ℚ)
  | setDistanceToFog (d : ℚ)
  | setFogDensity (d : ℚ)
  | setFogOriginFactor (f : ℚ)
  | setFieldOfView (f : ℚ)
  | setHeightScaleFactor (f : ℚ)
  | setHeightmapPatchesPerSide (n : Int)
  | setTextureAtlasesUsagePermit (b : Bool)
  | setTileProvider (layer : TileLayerId) (p : Option TileProvider)
  | setWindowSize (p : PointI)
  | setViewport (a : AreaI)
  | setFogColor (r g b : ℚ)
deriving DecidableEq

/-- Render engine as the viewer sees it: its configuration, the value
`getScaledTileSizeOnScreen()` returns, and the setter calls received so far (oldest
first). -/
structure Renderer where
  configuration : Configuration
  scaledTileSizeOnScreen : ℚ
  calls : List EngineCall

namespace Renderer

/-- Modelled from the spec: `IMapRenderer::setTarget` is outside the source file; the
engine stores the target it is given. -/
def setTarget (p : PointI) (r : Renderer) : Renderer :=
  { r with configuration := { r.configuration with target31 := p },
           calls := r.calls ++ [EngineCall.setTarget p] }

/-- Modelled from the spec: `IMapRenderer::setZoom` is outside the source file; the engine
stores the zoom it is given, `zoomBase` being its integer level and `zoomFraction` the
fractional part in `[0,1)`. -/
def setZoom (z : ℚ) (r : Renderer) : Renderer :=
  { r with configuration := { r.configuration with
             requestedZoom := z, zoomBase := ⌊z⌋, zoomFraction := z - ⌊z⌋ },
           calls := r.calls ++ [EngineCall.setZoom z] }

/-- Modelled from the spec: `IMapRenderer::setAzimuth` stores the value it is given. -/
def setAzimuth (a : ℚ) (r : Renderer) : Renderer :=
  { r with configuration := { r.configuration with azimuth := a },
           calls := r.calls ++ [EngineCall.setAzimuth a] }

/-- Modelled from the spec: `IMapRenderer::setElevationAngle` stores the value it is
given. -/
def setElevationAngle (a : ℚ) (r : Renderer) : Renderer :=
  { r with configuration := { r.configuration with elevationAngle := a },
           calls := r.calls ++ [EngineCall.setElevationAngle a] }

/-- Modelled from the spec: `IMapRenderer::setDistanceToFog` stores the value it is
given. -/
def setDistanceToFog (d : ℚ) (r : Renderer) : Renderer :=
  { r with configuration := { r.configuration with fogDistance := d },
           calls := r.calls ++ [EngineCall.setDistanceToFog d] }

/-- Modelled from the spec: `IMapRenderer::setFogDensity` stores the value it is given. -/
def setFogDensity (d : ℚ) (r : Renderer) : Renderer :=
  { r with configuration := { r.configuration with fogDensity := d },
           calls := r.calls ++ [EngineCall.setFogDensity d] }

/-- Modelled from the spec: `IMapRenderer::setFogOriginFactor` stores the value it is
given. -/
def setFogOriginFactor (f : ℚ) (r : Renderer) : Renderer :=
  { r with configuration := { r.configuration with fogOriginFactor := f },
           calls := r.calls ++ [EngineCall.setFogOriginFactor f] }

/-- Modelled from the spec: `IMapRenderer::setFieldOfView` stores the value it is
given. -/
def setFieldOfView (f : ℚ) (r : Renderer) : Renderer :=
  { r with configuration := { r.configuration with fieldOfView := f },
           calls := r.calls ++ [EngineCall.setFieldOfView f] }

/-- Modelled from the spec: `IMapRenderer::setHeightScaleFactor` stores the value it is
given. -/
def setHeightScaleFactor (f : ℚ) (r : Renderer) : Renderer :=
  { r with configuration := { r.configuration with heightScaleFactor := f },
           calls := r.calls ++ [EngineCall.setHeightScaleFactor f] }

/-- Modelled from the spec: `IMapRenderer::setHeightmapPatchesPerSide` stores the value it
is given. -/
def setHeightmapPatchesPerSide (n : Int) (r : Renderer) : Renderer :=
  { r with configuration := { r.configuration with heightmapPatchesPerSide := n },
           calls := r.calls ++ [EngineCall.setHeightmapPatchesPerSide n] }

/-- Modelled from the spec: `IMapRenderer::setTextureAtlasesUsagePermit` stores the flag
it is given. -/
def setTextureAtlasesUsagePermit (b : Bool) (r : Renderer) : Renderer :=
  { r with configuration := { r.configuration with textureAtlasesAllowed := b },
           calls := r.calls ++ [EngineCall.setTextureAtlasesUsagePermit b] }

/-- Modelled from the spec: `IMapRenderer::setTileProvider` is outside the source file;
installing a provider (or none) for a layer replaces what was bound to that layer and
leaves the other layers alone. -/
def setTileProvider (layer : TileLayerId) (p : Option TileProvider) (r : Renderer) :
    Renderer :=
  { r with configuration := { r.configuration with
             tileProviders := fun l => if l = layer then p else r.configuration.tileProviders l },
           calls := r.calls ++ [EngineCall.setTileProvider layer p] }

/-- Modelled from the spec: `IMapRenderer::setWindowSize` only receives the size. -/
def setWindowSize (p : PointI) (r : Renderer) : Renderer :=
  { r with calls := r.calls ++ [EngineCall.setWindowSize p] }

/-- Modelled from the spec: `IMapRenderer::setViewport` only receives the rectangle. -/
def setViewport (a : AreaI) (r : Renderer) : Renderer :=
  { r with calls := r.calls ++ [EngineCall.setViewport a] }

/-- Modelled from the spec: `IMapRenderer::setFogColor` only receives the colour (the
configuration fields the viewer reads hold no fog colour). -/
def setFogColor (r g b : ℚ) (rd : Renderer) : Renderer :=
  { rd with calls := rd.calls ++ [EngineCall.setFogColor r g b] }

/-- Value returned by `getScaledTileSizeOnScreen()`. -/
def getScaledTileSizeOnScreen (r : Renderer) : ℚ := r.scaledTileSizeOnScreen

end Renderer

/-- Globals of `main.cpp` that the handlers read or write. `leftMainLoop` records a call
of `glutLeaveMainLoop()`, `redisplayPosted` counts the calls of `glutPostRedisplay()`. -/
structure Viewer where
  viewport : AreaI
  renderer : Renderer
  wasHeightsDirSpecified : Bool
  renderWireframe : Bool
  dragInitialized : Bool
  dragInitX : Int
  dragInitY : Int
  dragInitTarget : PointI
  leftMainLoop : Bool
  redisplayPosted : Nat

/-! ## Handlers -/

/-- Handler `reshapeHandler` (the `glViewport` call has no effect on the modelled state). -/
def reshapeHandler (newWidth newHeight : Int) (s : Viewer) : Viewer :=
  let viewport := { s.viewport with right := newWidth, bottom := newHeight }
  { s with viewport := viewport,
           renderer := (s.renderer.setWindowSize ⟨newWidth, newHeight⟩).setViewport viewport }

/-- Handler `mouseHandler`: begins and ends the drag session on the left button. -/
def mouseHandler (button state x y : Int) (s : Viewer) : Viewer :=
  if button = GLUT_LEFT_BUTTON then
    if state = GLUT_DOWN ∧ s.dragInitialized = false then
      { s with dragInitX := x, dragInitY := y,
               dragInitTarget := s.renderer.configuration.target31,
               dragInitialized := true }
    else if state = GLUT_UP ∧ s.dragInitialized = true then
      { s with dragInitialized := false }
    else s
  else s

/-- Value of `tileSize31` in `mouseMotion`: `1`, replaced by `(1u << (31 - zoomBase)) - 1`
(unsigned arithmetic, stored in an `int32_t`) when `zoomBase` is not 31. -/
def tileSize31 (zoomBase : Int) : Int :=
  if zoomBase ≠ 31 then wrap32 (((shlU32 1 (31 - zoomBase) : Nat) : Int) - 1) else 1

/-- Handler `mouseMotion`. The offsets are converted to `float`, rotated in `float`,
multiplied in `double` by the scale and converted to `int32_t`; `setTarget` is called
whatever the scale is. -/
def mouseMotion (m : Libm) (x y : Int) (s : Viewer) : Viewer :=
  if s.dragInitialized = true then
    let deltaX := x - s.dragInitX
    let deltaY := y - s.dragInitY
    let angle := m.qDegreesToRadians s.renderer.configuration.azimuth
    let cosAngle := m.cosf angle
    let sinAngle := m.sinf angle
    let nx : ℚ := fl32 (fl32 (fl32 deltaX * cosAngle) - fl32 (fl32 deltaY * sinAngle))
    let ny : ℚ := fl32 (fl32 (fl32 deltaX * sinAngle) + fl32 (fl32 deltaY * cosAngle))
    let scale31 := fdiv (tileSize31 s.renderer.configuration.zoomBase)
      s.renderer.getScaledTileSizeOnScreen
    let newTarget : PointI :=
      { x := wrap32 (s.dragInitTarget.x - (DoubleValue.mul nx scale31).toInt32),
        y := wrap32 (s.dragInitTarget.y - (DoubleValue.mul ny scale31).toInt32) }
    { s with renderer := s.renderer.setTarget newTarget }
  else s

/-- Handler `mouseWheelHandler`: the step is the `float` literal `0.1f` or `0.01f`, the
sum is a `float`. -/
def mouseWheelHandler (button dir x y : Int) (modifiers : Nat) (s : Viewer) : Viewer :=
  let step : ℚ := if modifiers &&& GLUT_ACTIVE_SHIFT ≠ 0 then fl32 (1 / 10) else fl32 (1 / 100)
  if dir > 0 then
    { s with renderer :=
        s.renderer.setZoom (fl32 (s.renderer.configuration.requestedZoom + step)) }
  else
    { s with renderer :=
        s.renderer.setZoom (fl32 (s.renderer.configuration.requestedZoom - step)) }

/-- Function `activateProvider`. -/
def activateProvider (layerId : TileLayerId) (idx : Int) (s : Viewer) : Viewer :=
  if idx = 0 then
    { s with renderer := s.renderer.setTileProvider layerId none }
  else if idx = 1 then
    { s with renderer := s.renderer.setTileProvider layerId (some TileProvider.CycleMap) }
  else if idx = 2 then
    { s with renderer := s.renderer.setTileProvider layerId (some TileProvider.Mapnik) }
  else s

/-- Layer a digit key addresses: `MapOverlay0` with alt held, `RasterMap` otherwise. -/
def digitLayer (modifiers : Nat) : TileLayerId :=
  if modifiers &&& GLUT_ACTIVE_ALT ≠ 0 then TileLayerId.MapOverlay0 else TileLayerId.RasterMap

/-- Handler `keyboardHandler`; the `switch` over the key is the chain of tests below. -/
def keyboardHandler (key : Char) (x y : Int) (modifiers : Nat) (s : Viewer) : Viewer :=
  let cfg := s.renderer.configuration
  let wasdZoom := toInt32 cfg.requestedZoom
  let wasdStep := shlI32 1 (31 - wasdZoom)
  if key = Char.ofNat 27 then
    { s with leftMainLoop := true }
  else if key = 'W' ∨ key = 'w' then
    let newTarget := cfg.target31
    let newTarget := { newTarget with
      y := wrap32 (newTarget.y - Int.tdiv wasdStep (if key = 'w' then 50 else 10)) }
    { s with renderer := s.renderer.setTarget newTarget }
  else if key = 'S' ∨ key = 's' then
    let newTarget := cfg.target31
    let newTarget := { newTarget with
      y := wrap32 (newTarget.y + Int.tdiv wasdStep (if key = 's' then 50 else 10)) }
    { s with renderer := s.renderer.setTarget newTarget }
  else if key = 'A' ∨ key = 'a' then
    let newTarget := cfg.target31
    let newTarget := { newTarget with
      x := wrap32 (newTarget.x - Int.tdiv wasdStep (if key = 'a' then 50 else 10)) }
    { s with renderer := s.renderer.setTarget newTarget }
  else if key = 'D' ∨ key = 'd' then
    let newTarget := cfg.target31
    let newTarget := { newTarget with
      x := wrap32 (newTarget.x + Int.tdiv wasdStep (if key = 'd' then 50 else 10)) }
    { s with renderer := s.renderer.setTarget newTarget }
  else if key = 'r' then
    { s with renderer := s.renderer.setDistanceToFog (fl32 (cfg.fogDistance + 1)) }
  else if key = 'f' then
    { s with renderer := s.renderer.setDistanceToFog (fl32 (cfg.fogDistance - 1)) }
  else if key = 'x' then
    { s with renderWireframe := !s.renderWireframe, redisplayPosted := s.redisplayPosted + 1 }
  else if key = 'e' then
    if (cfg.tileProviders TileLayerId.ElevationData).isSome then
      { s with renderer := s.renderer.setTileProvider TileLayerId.ElevationData none }
    else if s.wasHeightsDirSpecified then
      { s with renderer :=
          s.renderer.setTileProvider TileLayerId.ElevationData (some TileProvider.Heightmap) }
    else s
  else if key = 'z' then
    { s with renderer := s.renderer.setTextureAtlasesUsagePermit (!cfg.textureAtlasesAllowed) }
  else if key = 'y' then
    { s with renderer := s.renderer.setHeightmapPatchesPerSide (cfg.heightmapPatchesPerSide + 1) }
  else if key = 'h' then
    { s with renderer := s.renderer.setHeightmapPatchesPerSide (cfg.heightmapPatchesPerSide - 1) }
  else if key = 't' then
    { s with renderer := s.renderer.setFogDensity (fl32 (cfg.fogDensity + fl32 (1 / 100))) }
  else if key = 'g' then
    { s with renderer := s.renderer.setFogDensity (fl32 (cfg.fogDensity - fl32 (1 / 100))) }
  else if key = 'u' then
    { s with renderer :=
        s.renderer.setFogOriginFactor (fl32 (cfg.fogOriginFactor + fl32 (1 / 100))) }
  else if key = 'j' then
    { s with renderer :=
        s.renderer.setFogOriginFactor (fl32 (cfg.fogOriginFactor - fl32 (1 / 100))) }
  else if key = 'i' then
    { s with renderer := s.renderer.setFieldOfView (fl32 (cfg.fieldOfView + 1 / 2)) }
  else if key = 'k' then
    { s with renderer := s.renderer.setFieldOfView (fl32 (cfg.fieldOfView - 1 / 2)) }
  else if key = 'o' then
    { s with renderer :=
        s.renderer.setHeightScaleFactor (fl32 (cfg.heightScaleFactor + fl32 (1 / 10))) }
  else if key = 'l' then
    { s with renderer :=
        s.renderer.setHeightScaleFactor (fl32 (cfg.heightScaleFactor - fl32 (1 / 10))) }
  else if key = '0' then activateProvider (digitLayer modifiers) 0 s
  else if key = '1' then activateProvider (digitLayer modifiers) 1 s
  else if key = '2' then activateProvider (digitLayer modifiers) 2 s
  else if key = '3' then activateProvider (digitLayer modifiers) 3 s
  else s

/-- Handler `specialHandler`. -/
def specialHandler (key x y : Int) (modifiers : Nat) (s : Viewer) : Viewer :=
  let step : ℚ := if modifiers &&& GLUT_ACTIVE_SHIFT ≠ 0 then 1 else fl32 (1 / 10)
  if key = GLUT_KEY_LEFT then
    { s with renderer := s.renderer.setAzimuth (fl32 (s.renderer.configuration.azimuth + step)) }
  else if key = GLUT_KEY_RIGHT then
    { s with renderer := s.renderer.setAzimuth (fl32 (s.renderer.configuration.azimuth - step)) }
  else if key = GLUT_KEY_UP then
    { s with renderer :=
        s.renderer.setElevationAngle (fl32 (s.renderer.configuration.elevationAngle + step)) }
  else if key = GLUT_KEY_DOWN then
    { s with renderer :=
        s.renderer.setElevationAngle (fl32 (s.renderer.configuration.elevationAngle - step)) }
  else s

/-! ## Start-up and event dispatch -/

/-- State in which `main` enters `glutMainLoop()`, from the engine `r` as
`createAtlasMapRenderer_OpenGL()` returned it: the set-up calls of `main` in their order.
The drag globals are zero-initialised. -/
def startup (r : Renderer) (heightsDirGiven : Bool) : Viewer :=
  let s : Viewer :=
    { viewport := ⟨0, 0, 0, 0⟩, renderer := r, wasHeightsDirSpecified := heightsDirGiven,
      renderWireframe := false, dragInitialized := false, dragInitX := 0, dragInitY := 0,
      dragInitTarget := ⟨0, 0⟩, leftMainLoop := false, redisplayPosted := 0 }
  let s := activateProvider TileLayerId.RasterMap 1 s
  let viewport : AreaI := { top := 0, left := 0, bottom := 600, right := 800 }
  let r := s.renderer
  let r := r.setWindowSize ⟨800, 600⟩
  let r := r.setViewport viewport
  let r := r.setZoom (3 / 2)
  let r := r.setAzimuth (fl32 (347 / 5))
  let r := r.setElevationAngle 13
  let r := r.setFogColor 1 1 1
  let r := r.setTarget ⟨1102430866, 704978668⟩
  let r := r.setZoom (25 / 2)
  let r := r.setAzimuth 0
  let r := r.setElevationAngle 90
  { s with viewport := viewport, renderer := r }

/-- Events the GLUT main loop delivers to the registered callbacks. -/
inductive Event
  | reshape (newWidth newHeight : Int)
  | mouse (button state x y : Int)
  | motion (x y : Int)
  | wheel (button dir x y : Int) (modifiers : Nat)
  | keyboard (key : Char) (x y : Int) (modifiers : Nat)
  | special (key x y : Int) (modifiers : Nat)

/-- Callback registered for an event, applied to the state. -/
def dispatch (m : Libm) : Event → Viewer → Viewer
  | Event.reshape w h, s => reshapeHandler w h s
  | Event.mouse b st x y, s => mouseHandler b st x y s
  | Event.motion x y, s => mouseMotion m x y s
  | Event.wheel b d x y mods, s => mouseWheelHandler b d x y mods s
  | Event.keyboard k x y mods, s => keyboardHandler k x y mods s
  | Event.special k x y mods, s => specialHandler k x y mods s

/-- Events handled one after the other, in the order delivered. -/
def run (m : Libm) : List Event → Viewer → Viewer
  | [], s => s
  | e :: es, s => run m es (dispatch m e s)

/-- Release of the left button. -/
def Event.isLeftUp : Event → Bool
  | Event.mouse b st _ _ => decide (b = GLUT_LEFT_BUTTON) && decide (st = GLUT_UP)
  | _ => false

/-- One drag session: left button down at `(x, y)`, one motion event displaced by
`(dx, dy)`, left button up there. -/
def dragSession (m : Libm) (x y dx dy : Int) (s : Viewer) : Viewer :=
  run m [Event.mouse GLUT_LEFT_BUTTON GLUT_DOWN x y, Event.motion (x + dx) (y + dy),
         Event.mouse GLUT_LEFT_BUTTON GLUT_UP (x + dx) (y + dy)] s

/-- Wheel event repeated `n` times with the same arguments. -/
def wheelEvents (n : Nat) (button dir x y : Int) (modifiers : Nat) (s : Viewer) : Viewer :=
  Nat.iterate (mouseWheelHandler button dir x y modifiers) n s

/-! ## Sample inputs -/

/-- Library functions at angle zero: the conversion to radians of `0` is `0`, its cosine is
`1` and its sine `0`. Used only with azimuth `0`. -/
def libmAtZero : Libm :=
  { qDegreesToRadians := fun _ => 0, cosf := fun _ => 1, sinf := fun _ => 0 }

/-- An engine before start-up. What `main` does not set is a sample value: a tile of 256
pixels on screen, no fog, no provider. -/
def sampleRenderer : Renderer :=
  { configuration :=
      { target31 := ⟨0, 0⟩, requestedZoom := 0, zoomBase := 0, zoomFraction := 0,
        azimuth := 0, elevationAngle := 0, fogDistance := 0, fogDensity := 0,
        fogOriginFactor := 0, fieldOfView := 0, heightScaleFactor := 1,
        heightmapPatchesPerSide := 1, textureAtlasesAllowed := true,
        tileProviders := fun _ => none },
    scaledTileSizeOnScreen := 256,
    calls := [] }

/-- Viewer as `main` starts it on the sample engine: target Amsterdam, zoom 12.5,
azimuth 0. -/
def sampleViewer : Viewer := startup sampleRenderer false

/-- Viewer at start-up whose engine is at the integer zoom level `zoomBase` and reports
the on-screen tile size `p`. -/
def viewerWith (zoomBase : Int) (p : ℚ) : Viewer :=
  { sampleViewer with renderer :=
      { sampleViewer.renderer with
          configuration := { sampleViewer.renderer.configuration with
            requestedZoom := zoomBase, zoomBase := zoomBase, zoomFraction := 0 },
          scaledTileSizeOnScreen := p } }

/-! ## Formulas of the specification -/

/-- Unit tile size in the words of the specification (section 4.1, step 3): `1` at zoom
level 31, `(1 << (31 - zoomBase)) - 1` otherwise. -/
def specUnitTileSize (zoomBase : Int) : ℚ :=
  if zoomBase = 31 then 1 else 2 ^ (31 - zoomBase).toNat - 1

/-- Drag target in the words of the specification (section 4.1 and `UpdateDrag`): the
offset rotated by the azimuth, scaled by unit tile size over on-screen tile size, each
component rounded to the nearest integer and subtracted from the session origin. -/
def specDragTarget (origin : PointI) (dx dy : Int) (cosA sinA : ℚ) (zoomBase : Int)
    (p : ℚ) : PointI :=
  { x := origin.x - round ((dx * cosA - dy * sinA) * (specUnitTileSize zoomBase / p)),
    y := origin.y - round ((dx * sinA + dy * cosA) * (specUnitTileSize zoomBase / p)) }

/-- Drag target with the arithmetic the code performs: the offsets converted to `float`
and rotated in `float` (every product and the sum rounded), the scale `u / p` and the
scaled components rounded in `double`, each component cut to its integer part (toward
zero) as an `int32_t` and subtracted from the session origin in `int32_t` arithmetic. -/
def truncDragTarget (origin : PointI) (dx dy : Int) (cosA sinA : ℚ) (zoomBase : Int)
    (p : ℚ) : PointI :=
  { x := wrap32 (origin.x - toInt32 (fl64
      (fl32 (fl32 (fl32 dx * cosA) - fl32 (fl32 dy * sinA))
        * fl64 (specUnitTileSize zoomBase / p)))),
    y := wrap32 (origin.y - toInt32 (fl64
      (fl32 (fl32 (fl32 dx * sinA) + fl32 (fl32 dy * cosA))
        * fl64 (specUnitTileSize zoomBase / p)))) }

/-- Pan amount in the words of the specification: `(1 << (31 - z)) / div` with integer
division, `z` the integer part of the requested zoom. -/
def specPanStep (z : Int) (div : Int) : Int := 2 ^ (31 - z).toNat / div

/-- Drag session of the viewer: whether one is active, and its origin. -/
def dragSessionOf (s : Viewer) : Bool × Int × Int × PointI :=
  (s.dragInitialized, s.dragInitX, s.dragInitY, s.dragInitTarget)

/-- Viewer in a drag session begun at pointer position `(100, 100)` from the start-up
state, the engine reporting tile size `p` at zoom level `zoomBase`. -/
def draggingViewer (zoomBase : Int) (p : ℚ) : Viewer :=
  mouseHandler GLUT_LEFT_BUTTON GLUT_DOWN 100 100 (viewerWith zoomBase p)

/-- Value of `wasdStep` in `keyboardHandler`: `1 << (31 - wasdZoom)`, `wasdZoom` being the
requested zoom converted to `int`. -/
def wasdStep (requestedZoom : ℚ) : Int := shlI32 1 (31 - toInt32 requestedZoom)

/-- Legend of the tile providers that `displayHandler` draws under the line
"Tile providers (holding alt controls overlay0):", each line with the height
`glRasterPos2f` puts it at. -/
def tileProviderLegend : List (Int × String) :=
  [(16 * 5, "0 - disable"), (16 * 4, "1 - Mapnik"), (16 * 3, "2 - CycleMap"),
   (16 * 2, "3 - Vector maps"), (16 * 1, "4 - Hillshade")]

/-- Name of a provider, as in the function that constructs it (`createCycleMapProvider`,
`createMapnikProvider`, `HeightmapTileProvider`). -/
def TileProvider.name : TileProvider → String
  | TileProvider.CycleMap => "CycleMap"
  | TileProvider.Mapnik => "Mapnik"
  | TileProvider.Heightmap => "Heightmap"

/-- Legend line that would announce provider `p` for the digit key `key`. -/
def legendLine (key : Char) (p : TileProvider) : String :=
  key.toString ++ " - " ++ p.name

/-! ## Auxiliary facts -/

/-- Target `mouseMotion` hands to `setTarget`, as a function of the session origin, the
pointer offset, the cosine and sine of the azimuth and the scale. -/
def movedTarget (origin : PointI) (deltaX deltaY : Int) (cosAngle sinAngle : ℚ)
    (scale31 : DoubleValue) : PointI :=
  { x := wrap32 (origin.x - (DoubleValue.mul
      (fl32 (fl32 (fl32 deltaX * cosAngle) - fl32 (fl32 deltaY * sinAngle))) scale31).toInt32),
    y := wrap32 (origin.y - (DoubleValue.mul
      (fl32 (fl32 (fl32 deltaX * sinAngle) + fl32 (fl32 deltaY * cosAngle))) scale31).toInt32) }

theorem wrap32_of_isInt32 {v : Int} (h : isInt32 v) : wrap32 v = v := by
  unfold isInt32 at h
  unfold wrap32
  omega

theorem wrap32_add_half_ne (t : Int) : wrap32 (t + 2147483648) ≠ t := by
  unfold wrap32
  omega

theorem truncQ_neg (q : ℚ) : truncQ (-q) = -truncQ q := by
  unfold truncQ
  rcases lt_trichotomy q 0 with h | h | h
  · have h1 : (0 : ℚ) ≤ -q := by linarith
    have h2 : ¬ (0 : ℚ) ≤ q := by linarith
    rw [if_pos h1, if_neg h2, Int.floor_neg]
  · subst h; simp
  · have h1 : ¬ (0 : ℚ) ≤ -q := by linarith
    have h2 : (0 : ℚ) ≤ q := by linarith
    rw [if_neg h1, if_pos h2, Int.ceil_neg]

theorem truncQ_eq_of_nonneg {q : ℚ} {n : Int} (h0 : 0 ≤ q) (h1 : (n : ℚ) ≤ q)
    (h2 : q < n + 1) : truncQ q = n := by
  unfold truncQ
  rw [if_pos h0, Int.floor_eq_iff]
  exact ⟨h1, h2⟩

theorem truncQ_zero : truncQ 0 = 0 := by
  simp [truncQ]

theorem toInt32_zero : toInt32 0 = 0 := by
  rw [toInt32, truncQ_zero]
  rfl

theorem toInt32_there_and_back (t : Int) (q : ℚ) (h : isInt32 t) :
    wrap32 (wrap32 (t - toInt32 q) - toInt32 (-q)) = t := by
  unfold toInt32
  rw [truncQ_neg]
  generalize truncQ q = a
  unfold isInt32 at *
  unfold wrap32
  split_ifs <;> omega

theorem nearestEven_of_near (q : ℚ) (n : Int) (h : |q - n| < 1 / 2) : nearestEven q = n := by
  rw [abs_lt] at h
  obtain ⟨h1, h2⟩ := h
  have hf1 : (⌊q⌋ : ℚ) ≤ q := Int.floor_le q
  have hf2 : q < ⌊q⌋ + 1 := Int.lt_floor_add_one q
  have hcases : ⌊q⌋ = n ∨ ⌊q⌋ = n - 1 := by
    have a1 : (n : ℚ) - 1 < ⌊q⌋ + 1 := by linarith
    have a2 : (⌊q⌋ : ℚ) < n + 1 := by linarith
    have b1 : n - 1 < ⌊q⌋ + 1 := by exact_mod_cast a1
    have b2 : ⌊q⌋ < n + 1 := by exact_mod_cast a2
    omega
  unfold nearestEven
  rcases hcases with hc | hc
  · have : q - (⌊q⌋ : ℚ) < 1 / 2 := by rw [hc]; linarith
    rw [if_pos this, hc]
  · have e : (⌊q⌋ : ℚ) = n - 1 := by rw [hc]; push_cast; ring
    have n1 : ¬ q - (⌊q⌋ : ℚ) < 1 / 2 := by rw [e]; intro h; linarith
    have n2 : 1 / 2 < q - (⌊q⌋ : ℚ) := by rw [e]; linarith
    rw [if_neg n1, if_pos n2, hc]
    ring

theorem nearestEven_zero : nearestEven 0 = 0 := by
  apply nearestEven_of_near
  norm_num

theorem roundHalfEven_neg (q : ℚ) : roundHalfEven (-q) = -roundHalfEven q := by
  unfold roundHalfEven
  rcases lt_trichotomy q 0 with h | h | h
  · have h1 : (0 : ℚ) ≤ -q := by linarith
    have h2 : ¬ (0 : ℚ) ≤ q := by linarith
    rw [if_pos h1, if_neg h2, neg_neg]
  · subst h
    simp [nearestEven_zero]
  · have h1 : ¬ (0 : ℚ) ≤ -q := by linarith
    have h2 : (0 : ℚ) ≤ q := by linarith
    rw [if_neg h1, if_pos h2, neg_neg]

theorem roundHalfEven_of_near (q : ℚ) (n : Int) (h : |q - n| < 1 / 2) :
    roundHalfEven q = n := by
  unfold roundHalfEven
  split_ifs with h0
  · exact nearestEven_of_near q n h
  · have : nearestEven (-q) = -n := by
      apply nearestEven_of_near
      have e : -q - ((-n : Int) : ℚ) = -(q - n) := by push_cast; ring
      rw [e, abs_neg]
      exact h
    rw [this, neg_neg]

theorem roundHalfEven_intCast (n : Int) : roundHalfEven (n : ℚ) = n := by
  apply roundHalfEven_of_near
  simp

theorem roundToPrecision_zero (p : Nat) : roundToPrecision p 0 = 0 := by
  simp [roundToPrecision]

theorem roundToPrecision_neg (p : Nat) (q : ℚ) :
    roundToPrecision p (-q) = -roundToPrecision p q := by
  unfold roundToPrecision
  by_cases h : q = 0
  · subst h; simp
  · have h2 : -q ≠ 0 := neg_ne_zero.mpr h
    rw [if_neg h, if_neg h2, abs_neg, neg_div, roundHalfEven_neg]
    push_cast
    ring

theorem log_two_eq (q : ℚ) (e : Int) (h1 : (2 : ℚ) ^ e ≤ |q|) (h2 : |q| < (2 : ℚ) ^ (e + 1)) :
    Int.log 2 |q| = e := by
  have hpos : (0 : ℚ) < |q| := lt_of_lt_of_le (by positivity) h1
  have a : e ≤ Int.log 2 |q| := by
    rw [← Int.zpow_le_iff_le_log (by norm_num) hpos]
    simpa using h1
  have b : Int.log 2 |q| < e + 1 := by
    rw [← Int.lt_zpow_iff_log_lt (by norm_num) hpos]
    simpa using h2
  omega

/-- Evaluation of a rounding from the binade `e` of the number and the integer `n`
nearest to its quotient by the unit in the last place. -/
theorem roundToPrecision_eq_of_near (p : Nat) (q : ℚ) (e n : Int)
    (h1 : (2 : ℚ) ^ e ≤ |q|) (h2 : |q| < (2 : ℚ) ^ (e + 1))
    (hn : |q / 2 ^ (e - (p - 1)) - n| < 1 / 2) :
    roundToPrecision p q = n * 2 ^ (e - (p - 1)) := by
  have hq : q ≠ 0 := by
    intro h
    rw [h, abs_zero] at h1
    exact absurd h1 (not_le.mpr (by positivity))
  unfold roundToPrecision
  rw [if_neg hq, log_two_eq q e h1 h2, roundHalfEven_of_near _ n hn]

theorem nearestEven_error (q : ℚ) : |(nearestEven q : ℚ) - q| ≤ 1 / 2 := by
  have hf1 : (⌊q⌋ : ℚ) ≤ q := Int.floor_le q
  have hf2 : q < ⌊q⌋ + 1 := Int.lt_floor_add_one q
  unfold nearestEven
  rw [abs_le]
  split_ifs with a b c
  · constructor <;> linarith
  · push_cast; constructor <;> linarith
  · have e : q - (⌊q⌋ : ℚ) = 1 / 2 := le_antisymm (not_lt.mp b) (not_lt.mp a)
    constructor <;> linarith
  · have e : q - (⌊q⌋ : ℚ) = 1 / 2 := le_antisymm (not_lt.mp b) (not_lt.mp a)
    push_cast; constructor <;> linarith

theorem roundHalfEven_error (q : ℚ) : |(roundHalfEven q : ℚ) - q| ≤ 1 / 2 := by
  unfold roundHalfEven
  split_ifs with h
  · exact nearestEven_error q
  · have := nearestEven_error (-q)
    have e : ((-nearestEven (-q) : Int) : ℚ) - q = -((nearestEven (-q) : ℚ) - -q) := by
      push_cast; ring
    rw [e, abs_neg]
    exact this

theorem roundToPrecision_error (p : Nat) (q : ℚ) :
    |roundToPrecision p q - q| ≤ |q| / 2 ^ p := by
  unfold roundToPrecision
  by_cases hq : q = 0
  · subst hq; simp
  · rw [if_neg hq]
    have hpos : (0 : ℚ) < |q| := abs_pos.mpr hq
    have hu : (0 : ℚ) < 2 ^ (Int.log 2 |q| - (p - 1)) := by positivity
    have hlog : (2 : ℚ) ^ Int.log 2 |q| ≤ |q| := by
      have := Int.zpow_log_le_self (b := 2) (by norm_num) hpos
      simpa using this
    have herr := roundHalfEven_error (q / 2 ^ (Int.log 2 |q| - (p - 1)))
    have e : (roundHalfEven (q / 2 ^ (Int.log 2 |q| - (p - 1))) : ℚ)
          * 2 ^ (Int.log 2 |q| - (p - 1)) - q
        = ((roundHalfEven (q / 2 ^ (Int.log 2 |q| - (p - 1))) : ℚ)
            - q / 2 ^ (Int.log 2 |q| - (p - 1))) * 2 ^ (Int.log 2 |q| - (p - 1)) := by
      field_simp
    rw [e, abs_mul, abs_of_pos hu]
    have hhalf : (2 : ℚ) ^ (Int.log 2 |q| - (p - 1)) / 2 = 2 ^ Int.log 2 |q| / 2 ^ p := by
      rw [zpow_sub₀ (by norm_num), zpow_sub₀ (by norm_num)]
      simp only [zpow_natCast, zpow_one]
      field_simp
      ring
    calc |(roundHalfEven (q / 2 ^ (Int.log 2 |q| - (p - 1))) : ℚ)
            - q / 2 ^ (Int.log 2 |q| - (p - 1))| * 2 ^ (Int.log 2 |q| - (p - 1))
        ≤ 1 / 2 * 2 ^ (Int.log 2 |q| - (p - 1)) :=
          mul_le_mul_of_nonneg_right herr hu.le
      _ = 2 ^ Int.log 2 |q| / 2 ^ p := by rw [← hhalf]; ring
      _ ≤ |q| / 2 ^ p := by
          apply div_le_div_of_nonneg_right hlog
          positivity

theorem fl32_neg (q : ℚ) : fl32 (-q) = -fl32 q := roundToPrecision_neg 24 q

theorem fl64_neg (q : ℚ) : fl64 (-q) = -fl64 q := roundToPrecision_neg 53 q

theorem fl32_neg_sub_neg (a b : ℚ) : fl32 (-a - -b) = -fl32 (a - b) := by
  rw [← fl32_neg]
  congr 1
  ring

theorem fl32_neg_add_neg (a b : ℚ) : fl32 (-a + -b) = -fl32 (a + b) := by
  rw [← fl32_neg]
  congr 1
  ring

theorem fl32_zero : fl32 0 = 0 := roundToPrecision_zero 24

theorem fl64_zero : fl64 0 = 0 := roundToPrecision_zero 53

theorem fl32_one : fl32 1 = 1 := by
  have h := roundToPrecision_eq_of_near 24 1 0 8388608 (by norm_num) (by norm_num)
    (by rw [abs_lt]; constructor <;> norm_num)
  rw [fl32, h]
  norm_num

theorem doubleMul_there_and_back (t : Int) (a : ℚ) (d : DoubleValue) (h : isInt32 t) :
    wrap32 (wrap32 (t - (DoubleValue.mul a d).toInt32) - (DoubleValue.mul (-a) d).toInt32)
      = t := by
  cases d with
  | finite b =>
    simp only [DoubleValue.mul, DoubleValue.toInt32, neg_mul, fl64_neg]
    exact toInt32_there_and_back t _ h
  | notFinite =>
    simp only [DoubleValue.mul, DoubleValue.toInt32]
    unfold isInt32 at h
    unfold wrap32
    omega

theorem tileSize31_of_level (zoomBase : Int) (h0 : 0 ≤ zoomBase) (h1 : zoomBase ≤ 31) :
    tileSize31 zoomBase = if zoomBase = 31 then 1 else 2 ^ (31 - zoomBase).toNat - 1 := by
  interval_cases zoomBase <;> rfl

theorem mouseMotion_of_active (m : Libm) (x y : Int) (s : Viewer)
    (h : s.dragInitialized = true) :
    mouseMotion m x y s = { s with
      renderer := s.renderer.setTarget
        (movedTarget s.dragInitTarget (x - s.dragInitX) (y - s.dragInitY)
          (m.cosf (m.qDegreesToRadians s.renderer.configuration.azimuth))
          (m.sinf (m.qDegreesToRadians s.renderer.configuration.azimuth))
          (fdiv (tileSize31 s.renderer.configuration.zoomBase)
            s.renderer.scaledTileSizeOnScreen)) } := by
  unfold mouseMotion
  rw [if_pos h]
  simp only [Renderer.getScaledTileSizeOnScreen, movedTarget]

theorem movedTarget_back (origin : PointI) (dx dy : Int) (c sn : ℚ) (sc : DoubleValue)
    (h : origin.valid) :
    movedTarget (movedTarget origin dx dy c sn sc) (-dx) (-dy) c sn sc = origin := by
  obtain ⟨hx, hy⟩ := h
  have ex : fl32 (fl32 (fl32 ((-dx : Int) : ℚ) * c) - fl32 (fl32 ((-dy : Int) : ℚ) * sn))
      = -fl32 (fl32 (fl32 (dx : ℚ) * c) - fl32 (fl32 (dy : ℚ) * sn)) := by
    simp only [Int.cast_neg, fl32_neg, neg_mul, fl32_neg_sub_neg]
  have ey : fl32 (fl32 (fl32 ((-dx : Int) : ℚ) * sn) + fl32 (fl32 ((-dy : Int) : ℚ) * c))
      = -fl32 (fl32 (fl32 (dx : ℚ) * sn) + fl32 (fl32 (dy : ℚ) * c)) := by
    simp only [Int.cast_neg, fl32_neg, neg_mul, fl32_neg_add_neg]
  cases origin with
  | mk ox oy =>
    simp only [movedTarget, ex, ey] at *
    rw [doubleMul_there_and_back _ _ _ hx, doubleMul_there_and_back _ _ _ hy]

theorem mouseHandler_down_of_idle (x y : Int) (s : Viewer)
    (hidle : s.dragInitialized = false) :
    mouseHandler GLUT_LEFT_BUTTON GLUT_DOWN x y s = { s with
      dragInitX := x, dragInitY := y,
      dragInitTarget := s.renderer.configuration.target31,
      dragInitialized := true } := by
  simp [mouseHandler, hidle]

theorem dragSession_of_idle (m : Libm) (x y dx dy : Int) (s : Viewer)
    (hidle : s.dragInitialized = false) :
    dragSession m x y dx dy s = { s with
      dragInitX := x, dragInitY := y,
      dragInitTarget := s.renderer.configuration.target31,
      dragInitialized := false,
      renderer := s.renderer.setTarget
        (movedTarget s.renderer.configuration.target31 dx dy
          (m.cosf (m.qDegreesToRadians s.renderer.configuration.azimuth))
          (m.sinf (m.qDegreesToRadians s.renderer.configuration.azimuth))
          (fdiv (tileSize31 s.renderer.configuration.zoomBase)
            s.renderer.scaledTileSizeOnScreen)) } := by
  have hdown := mouseHandler_down_of_idle x y s hidle
  have hmove := mouseMotion_of_active m (x + dx) (y + dy)
    (mouseHandler GLUT_LEFT_BUTTON GLUT_DOWN x y s) (by rw [hdown])
  rw [hdown] at hmove
  simp only [dragSession, run, dispatch, hdown, hmove]
  simp [mouseHandler, GLUT_LEFT_BUTTON, GLUT_UP]

/-! ## Claims -/

/-- C1. Drag round trip: from an idle viewer whose target is a point of `int32_t`
coordinates and whose engine reports a non-zero tile size, a drag session displaced by
`(dx, dy)` followed by a drag session displaced by `(-dx, -dy)` (begun anywhere on screen)
leaves the target equal to the starting target, for every azimuth, zoom level and library
cosine and sine; azimuth, zoom level and tile size are untouched. -/
theorem drag_round_trip (m : Libm) (s : Viewer) (x y x2 y2 dx dy : Int)
    (hidle : s.dragInitialized = false)
    (hp : s.renderer.scaledTileSizeOnScreen ≠ 0)
    (hT : s.renderer.configuration.target31.valid) :
    (dragSession m x2 y2 (-dx) (-dy)
        (dragSession m x y dx dy s)).renderer.configuration.target31
      = s.renderer.configuration.target31 ∧
    (dragSession m x2 y2 (-dx) (-dy)
        (dragSession m x y dx dy s)).renderer.configuration.azimuth
      = s.renderer.configuration.azimuth ∧
    (dragSession m x2 y2 (-dx) (-dy)
        (dragSession m x y dx dy s)).renderer.configuration.zoomBase
      = s.renderer.configuration.zoomBase ∧
    (dragSession m x2 y2 (-dx) (-dy)
        (dragSession m x y dx dy s)).renderer.scaledTileSizeOnScreen
      = s.renderer.scaledTileSizeOnScreen := by
  rw [dragSession_of_idle m x y dx dy s hidle, dragSession_of_idle m x2 y2 (-dx) (-dy) _ rfl]
  refine ⟨?_, rfl, rfl, rfl⟩
  exact movedTarget_back _ dx dy _ _ _ hT

/-- Witness of C1 on the start-up state (tile size 256, azimuth 0): a drag by `(37, -12)`
and a drag by `(-37, 12)` begun elsewhere. -/
theorem drag_round_trip_witness :
    sampleViewer.dragInitialized = false ∧
    sampleViewer.renderer.scaledTileSizeOnScreen ≠ 0 ∧
    sampleViewer.renderer.configuration.target31.valid ∧
    (dragSession libmAtZero 400 300 (-37) (-(-12))
        (dragSession libmAtZero 100 100 37 (-12) sampleViewer)).renderer.configuration.target31
      = sampleViewer.renderer.configuration.target31 :=
  have hp : sampleViewer.renderer.scaledTileSizeOnScreen ≠ 0 := by
    show (256 : ℚ) ≠ 0
    norm_num
  ⟨rfl, hp, by decide,
    (drag_round_trip libmAtZero sampleViewer 100 100 400 300 37 (-12) rfl hp (by decide)).1⟩

theorem truncDragTarget_eq_movedTarget (origin : PointI) (dx dy : Int) (c sn : ℚ)
    (zoomBase : Int) (p : ℚ) (h0 : 0 ≤ zoomBase) (h1 : zoomBase ≤ 31) (hp : p ≠ 0) :
    movedTarget origin dx dy c sn (fdiv (tileSize31 zoomBase) p)
      = truncDragTarget origin dx dy c sn zoomBase p := by
  have hu : ((tileSize31 zoomBase : Int) : ℚ) = specUnitTileSize zoomBase := by
    rw [tileSize31_of_level zoomBase h0 h1]
    unfold specUnitTileSize
    split_ifs <;> push_cast <;> rfl
  simp only [movedTarget, truncDragTarget, fdiv, if_neg hp, DoubleValue.mul,
    DoubleValue.toInt32, hu]

/-- C2 (amended). Drag update formula: while a drag session is active, for every pointer
position, every azimuth (with the library cosine and sine), every zoom level in `0..31`
and every non-zero on-screen tile size `p`, `mouseMotion` calls `setTarget` with
`originTarget - (t(rx*s), t(ry*s))`, computed in `int32_t`, where `rx` and `ry` are the
rotated offset computed in `float` (every product and the sum rounded), `s = u/p` and the
products `rx*s`, `ry*s` are rounded in `double`, `u` is as in the specification, and `t` is
the conversion `static_cast<int32_t>`: it cuts a number to its integer part (rounding
toward zero, not to the nearest integer; `INT_MIN` beyond the range). -/
theorem drag_update_truncates (m : Libm) (s : Viewer) (x y : Int)
    (hactive : s.dragInitialized = true)
    (h0 : 0 ≤ s.renderer.configuration.zoomBase)
    (h1 : s.renderer.configuration.zoomBase ≤ 31)
    (hp : s.renderer.scaledTileSizeOnScreen ≠ 0) :
    mouseMotion m x y s = { s with
      renderer := s.renderer.setTarget
        (truncDragTarget s.dragInitTarget (x - s.dragInitX) (y - s.dragInitY)
          (m.cosf (m.qDegreesToRadians s.renderer.configuration.azimuth))
          (m.sinf (m.qDegreesToRadians s.renderer.configuration.azimuth))
          s.renderer.configuration.zoomBase s.renderer.scaledTileSizeOnScreen) } := by
  rw [mouseMotion_of_active m x y s hactive,
    truncDragTarget_eq_movedTarget _ _ _ _ _ _ _ h0 h1 hp]

theorem toInt32_of_lt_one {q : ℚ} (h0 : 0 ≤ q) (h1 : q < 1) : toInt32 q = 0 := by
  have h : truncQ q = 0 := truncQ_eq_of_nonneg h0 (by simpa using h0) (by simpa using h1)
  rw [toInt32, h]
  rfl

theorem fl64_255_256 : fl64 (255 / 256) = 255 / 256 := by
  have h := roundToPrecision_eq_of_near 53 (255 / 256) (-1) 8972014882652160
    (by norm_num [abs_of_pos]) (by norm_num [abs_of_pos])
    (by rw [abs_lt]; constructor <;> norm_num)
  rw [fl64, h]
  norm_num

/-- Witness of C2 (amended): start-up state at zoom level 23 with a tile of 256 pixels, in
a drag session begun at `(100, 100)`, pointer moved to `(101, 100)`. -/
theorem drag_update_truncates_witness :
    (draggingViewer 23 256).dragInitialized = true ∧
    0 ≤ (draggingViewer 23 256).renderer.configuration.zoomBase ∧
    (draggingViewer 23 256).renderer.configuration.zoomBase ≤ 31 ∧
    (draggingViewer 23 256).renderer.scaledTileSizeOnScreen ≠ 0 ∧
    mouseMotion libmAtZero 101 100 (draggingViewer 23 256) = { draggingViewer 23 256 with
      renderer := (draggingViewer 23 256).renderer.setTarget
        (truncDragTarget (draggingViewer 23 256).dragInitTarget
          (101 - (draggingViewer 23 256).dragInitX) (100 - (draggingViewer 23 256).dragInitY)
          (libmAtZero.cosf (libmAtZero.qDegreesToRadians
            (draggingViewer 23 256).renderer.configuration.azimuth))
          (libmAtZero.sinf (libmAtZero.qDegreesToRadians
            (draggingViewer 23 256).renderer.configuration.azimuth))
          (draggingViewer 23 256).renderer.configuration.zoomBase
          (draggingViewer 23 256).renderer.scaledTileSizeOnScreen) } :=
  have hp : (draggingViewer 23 256).renderer.scaledTileSizeOnScreen ≠ 0 := by
    show (256 : ℚ) ≠ 0
    norm_num
  ⟨rfl, by decide, by decide, hp,
    drag_update_truncates libmAtZero (draggingViewer 23 256) 101 100 rfl (by decide)
      (by decide) hp⟩

/-- C2, counterexample. At zoom level 23 with a tile of 256 pixels and azimuth 0, a drag
session begun at `(100, 100)` and the pointer moved one pixel right: every floating
operation is exact here, the scaled offset is `255/256`, which the code cuts to `0` (the
target stays at the origin of the session), while the formula with rounding to the nearest
integer moves the target by `1`. -/
theorem drag_update_not_rounded :
    (mouseMotion libmAtZero 101 100 (draggingViewer 23 256)).renderer.configuration.target31
      = ⟨1102430866, 704978668⟩ ∧
    specDragTarget (draggingViewer 23 256).dragInitTarget
        (101 - (draggingViewer 23 256).dragInitX) (100 - (draggingViewer 23 256).dragInitY)
        1 0 (draggingViewer 23 256).renderer.configuration.zoomBase
        (draggingViewer 23 256).renderer.scaledTileSizeOnScreen
      = ⟨1102430865, 704978668⟩ ∧
    (mouseMotion libmAtZero 101 100 (draggingViewer 23 256)).renderer.configuration.target31
      ≠ specDragTarget (draggingViewer 23 256).dragInitTarget
        (101 - (draggingViewer 23 256).dragInitX) (100 - (draggingViewer 23 256).dragInitY)
        1 0 (draggingViewer 23 256).renderer.configuration.zoomBase
        (draggingViewer 23 256).renderer.scaledTileSizeOnScreen := by
  have hT : (draggingViewer 23 256).dragInitTarget = ⟨1102430866, 704978668⟩ := rfl
  have hX : (draggingViewer 23 256).dragInitX = 100 := rfl
  have hY : (draggingViewer 23 256).dragInitY = 100 := rfl
  have hz : (draggingViewer 23 256).renderer.configuration.zoomBase = 23 := rfl
  have hs : (draggingViewer 23 256).renderer.scaledTileSizeOnScreen = 256 := rfl
  have ht : tileSize31 23 = 255 := rfl
  have hw1 : wrap32 1102430866 = 1102430866 := by decide
  have hw2 : wrap32 704978668 = 704978668 := by decide
  have hconv := toInt32_of_lt_one (q := 255 / 256) (by norm_num) (by norm_num)
  have hcode : (mouseMotion libmAtZero 101 100
      (draggingViewer 23 256)).renderer.configuration.target31
      = ⟨1102430866, 704978668⟩ := by
    rw [mouseMotion_of_active libmAtZero 101 100 _ rfl]
    simp only [Renderer.setTarget, movedTarget, hT, hX, hY, hz, hs, ht, libmAtZero, fdiv,
      DoubleValue.mul, DoubleValue.toInt32]
    norm_num [fl32_one, fl32_zero, fl64_zero, fl64_255_256, hconv, toInt32_zero, hw1, hw2]
  have hspec : specDragTarget (draggingViewer 23 256).dragInitTarget
      (101 - (draggingViewer 23 256).dragInitX) (100 - (draggingViewer 23 256).dragInitY)
      1 0 (draggingViewer 23 256).renderer.configuration.zoomBase
      (draggingViewer 23 256).renderer.scaledTileSizeOnScreen
      = ⟨1102430865, 704978668⟩ := by
    simp only [specDragTarget, specUnitTileSize, hT, hX, hY, hz, hs]
    have r1 : round (((((101 - 100 : Int) : ℚ)) * 1 - ((100 - 100 : Int) : ℚ) * 0)
        * ((if (23 : Int) = 31 then 1 else 2 ^ (31 - 23 : Int).toNat - 1) / 256)) = 1 := by
      rw [show ((31 : Int) - 23).toNat = 8 from rfl, round_eq, Int.floor_eq_iff]
      norm_num
    have r2 : round (((((101 - 100 : Int) : ℚ)) * 0 + ((100 - 100 : Int) : ℚ) * 1)
        * ((if (23 : Int) = 31 then 1 else 2 ^ (31 - 23 : Int).toNat - 1) / 256)) = 0 := by
      rw [show ((31 : Int) - 23).toNat = 8 from rfl, round_eq, Int.floor_eq_iff]
      norm_num
    rw [r1, r2]
    rfl
  refine ⟨hcode, hspec, ?_⟩
  rw [hcode, hspec]
  decide

/-- C3 (amended). Zero tile size is not guarded: when the engine reports an on-screen tile
size of zero, `mouseMotion` during an active drag divides by that zero (the scale is an
infinity or a NaN, not `0`) and still calls `setTarget`: for every pointer position the
target it sets is the session's origin target displaced by `2^31` on both axes in
`int32_t` arithmetic (the products are not finite and convert to `INT_MIN`), which is never
the origin target itself. -/
theorem zero_tile_size_divides (m : Libm) (s : Viewer) (x y : Int)
    (hactive : s.dragInitialized = true)
    (hp : s.renderer.scaledTileSizeOnScreen = 0) :
    fdiv (tileSize31 s.renderer.configuration.zoomBase)
      s.renderer.getScaledTileSizeOnScreen = DoubleValue.notFinite ∧
    mouseMotion m x y s = { s with
      renderer := s.renderer.setTarget
        ⟨wrap32 (s.dragInitTarget.x + 2147483648),
         wrap32 (s.dragInitTarget.y + 2147483648)⟩ } ∧
    (mouseMotion m x y s).renderer.configuration.target31 ≠ s.dragInitTarget := by
  have hdiv : fdiv (tileSize31 s.renderer.configuration.zoomBase)
      s.renderer.scaledTileSizeOnScreen = DoubleValue.notFinite := by
    simp only [fdiv, if_pos hp]
  have hmove : mouseMotion m x y s = { s with
      renderer := s.renderer.setTarget
        ⟨wrap32 (s.dragInitTarget.x + 2147483648),
         wrap32 (s.dragInitTarget.y + 2147483648)⟩ } := by
    rw [mouseMotion_of_active m x y s hactive, hdiv]
    simp only [movedTarget, DoubleValue.mul, DoubleValue.toInt32, sub_neg_eq_add]
  refine ⟨hdiv, hmove, ?_⟩
  rw [hmove]
  intro h
  exact wrap32_add_half_ne _ (congrArg PointI.x h)

/-- Witness of C3 (amended): a drag session on an engine reporting tile size zero. -/
theorem zero_tile_size_divides_witness :
    (draggingViewer 12 0).dragInitialized = true ∧
    (draggingViewer 12 0).renderer.scaledTileSizeOnScreen = 0 ∧
    (mouseMotion libmAtZero 110 95 (draggingViewer 12 0)).renderer.configuration.target31
      ≠ (draggingViewer 12 0).dragInitTarget :=
  ⟨rfl, rfl, (zero_tile_size_divides libmAtZero (draggingViewer 12 0) 110 95 rfl rfl).2.2⟩

/-- C3, counterexample. Start-up state with the engine reporting tile size zero, drag
session begun at `(100, 100)` with origin target `(1102430866, 704978668)`, pointer moved
to `(110, 95)`: `mouseMotion` sets the target `(-1045052782, -1442504980)`, not the origin
target of the session. -/
theorem zero_tile_size_not_safe :
    (draggingViewer 12 0).dragInitTarget = ⟨1102430866, 704978668⟩ ∧
    (mouseMotion libmAtZero 110 95 (draggingViewer 12 0)).renderer.configuration.target31
      = ⟨-1045052782, -1442504980⟩ ∧
    (mouseMotion libmAtZero 110 95 (draggingViewer 12 0)).renderer.configuration.target31
      ≠ (draggingViewer 12 0).dragInitTarget := by
  have hmove : (mouseMotion libmAtZero 110 95
      (draggingViewer 12 0)).renderer.configuration.target31
      = ⟨-1045052782, -1442504980⟩ := by
    rw [mouseMotion_of_active libmAtZero 110 95 _ rfl]
    have hdiv : fdiv (tileSize31 (draggingViewer 12 0).renderer.configuration.zoomBase)
        (draggingViewer 12 0).renderer.scaledTileSizeOnScreen = DoubleValue.notFinite := by
      have hp0 : (draggingViewer 12 0).renderer.scaledTileSizeOnScreen = 0 := rfl
      simp only [fdiv, if_pos hp0]
    have hT : (draggingViewer 12 0).dragInitTarget = ⟨1102430866, 704978668⟩ := rfl
    simp only [Renderer.setTarget, movedTarget, hdiv, hT, DoubleValue.mul,
      DoubleValue.toInt32]
    decide
  refine ⟨rfl, hmove, ?_⟩
  rw [hmove]
  decide

theorem shlI32_one_of_level (z : Int) (h1 : 1 ≤ z) (h31 : z ≤ 31) :
    shlI32 1 (31 - z) = 2 ^ (31 - z).toNat := by
  interval_cases z <;> rfl

theorem wasdStep_div (z d : Int) (h1 : 1 ≤ z) (h31 : z ≤ 31) (hd : 0 ≤ d) :
    Int.tdiv (shlI32 1 (31 - z)) d = specPanStep z d := by
  rw [shlI32_one_of_level z h1 h31, specPanStep]
  exact Int.tdiv_eq_ediv (by positivity) hd

theorem toInt32_of_level (q : ℚ) (z : Int) (hz : truncQ q = z) (h1 : 1 ≤ z) (h31 : z ≤ 31) :
    toInt32 q = z := by
  have hr : isInt32 z := ⟨by omega, by omega⟩
  rw [toInt32, hz, if_pos hr]

/-- C4. PanKey step rule: when the integer part `z` of the requested zoom is in `1..31`,
each pan key calls `setTarget` with the current target moved along one axis, in `int32_t`
arithmetic, by `(1 << (31 - z)) / 50` for a lowercase key and by `(1 << (31 - z)) / 10`
for an uppercase key: `w`/`W` subtract from `y`, `s`/`S` add to `y`, `a`/`A` subtract from
`x`, `d`/`D` add to `x`; the other coordinate is passed on as it is. -/
theorem pan_key_step (s : Viewer) (x y : Int) (modifiers : Nat) (z : Int)
    (hz : truncQ s.renderer.configuration.requestedZoom = z) (h1 : 1 ≤ z) (h31 : z ≤ 31) :
    keyboardHandler 'w' x y modifiers s = { s with
      renderer := s.renderer.setTarget
        ⟨s.renderer.configuration.target31.x,
         wrap32 (s.renderer.configuration.target31.y - specPanStep z 50)⟩ } ∧
    keyboardHandler 'W' x y modifiers s = { s with
      renderer := s.renderer.setTarget
        ⟨s.renderer.configuration.target31.x,
         wrap32 (s.renderer.configuration.target31.y - specPanStep z 10)⟩ } ∧
    keyboardHandler 's' x y modifiers s = { s with
      renderer := s.renderer.setTarget
        ⟨s.renderer.configuration.target31.x,
         wrap32 (s.renderer.configuration.target31.y + specPanStep z 50)⟩ } ∧
    keyboardHandler 'S' x y modifiers s = { s with
      renderer := s.renderer.setTarget
        ⟨s.renderer.configuration.target31.x,
         wrap32 (s.renderer.configuration.target31.y + specPanStep z 10)⟩ } ∧
    keyboardHandler 'a' x y modifiers s = { s with
      renderer := s.renderer.setTarget
        ⟨wrap32 (s.renderer.configuration.target31.x - specPanStep z 50),
         s.renderer.configuration.target31.y⟩ } ∧
    keyboardHandler 'A' x y modifiers s = { s with
      renderer := s.renderer.setTarget
        ⟨wrap32 (s.renderer.configuration.target31.x - specPanStep z 10),
         s.renderer.configuration.target31.y⟩ } ∧
    keyboardHandler 'd' x y modifiers s = { s with
      renderer := s.renderer.setTarget
        ⟨wrap32 (s.renderer.configuration.target31.x + specPanStep z 50),
         s.renderer.configuration.target31.y⟩ } ∧
    keyboardHandler 'D' x y modifiers s = { s with
      renderer := s.renderer.setTarget
        ⟨wrap32 (s.renderer.configuration.target31.x + specPanStep z 10),
         s.renderer.configuration.target31.y⟩ } := by
  have hq := toInt32_of_level _ z hz h1 h31
  have e50 := wasdStep_div z 50 h1 h31 (by norm_num)
  have e10 := wasdStep_div z 10 h1 h31 (by norm_num)
  refine ⟨?_, ?_, ?_, ?_, ?_, ?_, ?_, ?_⟩ <;>
    simp [keyboardHandler, hq, e50, e10]

theorem sampleViewer_zoom : truncQ sampleViewer.renderer.configuration.requestedZoom = 12 := by
  show truncQ (25 / 2) = 12
  exact truncQ_eq_of_nonneg (by norm_num) (by norm_num) (by norm_num)

/-- Witness of C4: the start-up state (zoom 12.5, integer part 12). -/
theorem pan_key_step_witness :
    truncQ sampleViewer.renderer.configuration.requestedZoom = 12 ∧ (1 : Int) ≤ 12 ∧
    (12 : Int) ≤ 31 ∧
    (keyboardHandler 'w' 0 0 0 sampleViewer).renderer.configuration.target31
      = ⟨1102430866, wrap32 (704978668 - specPanStep 12 50)⟩ ∧
    (keyboardHandler 'D' 0 0 0 sampleViewer).renderer.configuration.target31
      = ⟨wrap32 (1102430866 + specPanStep 12 10), 704978668⟩ :=
  have h := pan_key_step sampleViewer 0 0 0 12 sampleViewer_zoom (by decide) (by decide)
  ⟨sampleViewer_zoom, by decide, by decide,
    congrArg (fun v => v.renderer.configuration.target31) h.1,
    congrArg (fun v => v.renderer.configuration.target31) h.2.2.2.2.2.2.2⟩

/-- C5 (amended). Pan example scenarios: with target `(1102430866, 704978668)` and a zoom
of integer part 12, lowercase `w` sets `target.y` to `704978668 - (1<<19)/50` and uppercase
`W` sets it to `704978668 - (1<<19)/10`, so the uppercase key makes the larger step;
`target.x` stays `1102430866` in both cases. -/
theorem pan_example (s : Viewer) (x y : Int) (modifiers : Nat)
    (hT : s.renderer.configuration.target31 = ⟨1102430866, 704978668⟩)
    (hz : truncQ s.renderer.configuration.requestedZoom = 12) :
    (keyboardHandler 'w' x y modifiers s).renderer.configuration.target31
      = ⟨1102430866, 704978668 - 2 ^ 19 / 50⟩ ∧
    (keyboardHandler 'W' x y modifiers s).renderer.configuration.target31
      = ⟨1102430866, 704978668 - 2 ^ 19 / 10⟩ ∧
    (2 ^ 19 / 50 : Int) < 2 ^ 19 / 10 := by
  have hq := toInt32_of_level _ 12 hz (by decide) (by decide)
  have e50 : Int.tdiv (shlI32 1 (31 - 12)) 50 = 10485 := rfl
  have e10 : Int.tdiv (shlI32 1 (31 - 12)) 10 = 52428 := rfl
  refine ⟨?_, ?_, by decide⟩
  · simp only [keyboardHandler, hq, e50, hT, Renderer.setTarget]
    simp
    rfl
  · simp only [keyboardHandler, hq, e10, hT, Renderer.setTarget]
    simp
    rfl

/-- Witness of C5 (amended): the start-up state. -/
theorem pan_example_witness :
    sampleViewer.renderer.configuration.target31 = ⟨1102430866, 704978668⟩ ∧
    truncQ sampleViewer.renderer.configuration.requestedZoom = 12 ∧
    (keyboardHandler 'w' 0 0 0 sampleViewer).renderer.configuration.target31
      = ⟨1102430866, 704978668 - 2 ^ 19 / 50⟩ ∧
    (keyboardHandler 'W' 0 0 0 sampleViewer).renderer.configuration.target31
      = ⟨1102430866, 704978668 - 2 ^ 19 / 10⟩ ∧
    (2 ^ 19 / 50 : Int) < 2 ^ 19 / 10 :=
  ⟨rfl, sampleViewer_zoom, pan_example sampleViewer 0 0 0 rfl sampleViewer_zoom⟩

/-- C5, counterexample. On the start-up state (target `(1102430866, 704978668)`, zoom
12.5, azimuth 0) lowercase `w` does not set `target.y` to `704978668 - (1<<19)/10` and
uppercase `W` does not set it to `704978668 - (1<<19)/50`: the two steps are the other
way round, `w` giving `704968183` and `W` giving `704926240`. -/
theorem pan_example_swapped :
    (keyboardHandler 'w' 0 0 0 sampleViewer).renderer.configuration.target31.y = 704968183 ∧
    (keyboardHandler 'w' 0 0 0 sampleViewer).renderer.configuration.target31.y
      ≠ 704978668 - 2 ^ 19 / 10 ∧
    (keyboardHandler 'W' 0 0 0 sampleViewer).renderer.configuration.target31.y = 704926240 ∧
    (keyboardHandler 'W' 0 0 0 sampleViewer).renderer.configuration.target31.y
      ≠ 704978668 - 2 ^ 19 / 50 := by
  have hq := toInt32_of_level _ 12 sampleViewer_zoom (by decide) (by decide)
  have hT : sampleViewer.renderer.configuration.target31 = ⟨1102430866, 704978668⟩ := rfl
  have e50 : Int.tdiv (shlI32 1 (31 - 12)) 50 = 10485 := rfl
  have e10 : Int.tdiv (shlI32 1 (31 - 12)) 10 = 52428 := rfl
  have hw : (keyboardHandler 'w' 0 0 0 sampleViewer).renderer.configuration.target31.y
      = 704968183 := by
    simp only [keyboardHandler, hq, e50, hT, Renderer.setTarget]
    simp
    rfl
  have hW : (keyboardHandler 'W' 0 0 0 sampleViewer).renderer.configuration.target31.y
      = 704926240 := by
    simp only [keyboardHandler, hq, e10, hT, Renderer.setTarget]
    simp
    rfl
  refine ⟨hw, ?_, hW, ?_⟩
  · rw [hw]; decide
  · rw [hW]; decide

/-- C6. Inactive drag updates are no-ops: while no drag session is active, `mouseMotion`
returns the state as it was, for every pointer position and every engine state: no setter
call is added to the engine's log and no field of the configuration or of the drag session
changes. -/
theorem mouseMotion_inactive (m : Libm) (s : Viewer) (x y : Int)
    (hidle : s.dragInitialized = false) :
    mouseMotion m x y s = s := by
  simp [mouseMotion, hidle]

/-- Witness of C6: the start-up state, even with an engine reporting tile size zero. -/
theorem mouseMotion_inactive_witness :
    (viewerWith 12 0).dragInitialized = false ∧
    mouseMotion libmAtZero 321 123 (viewerWith 12 0) = viewerWith 12 0 :=
  ⟨rfl, mouseMotion_inactive libmAtZero (viewerWith 12 0) 321 123 rfl⟩

theorem keyboardHandler_dragSessionOf (key : Char) (x y : Int) (modifiers : Nat)
    (s : Viewer) :
    dragSessionOf (keyboardHandler key x y modifiers s) = dragSessionOf s := by
  have hr : ∀ r : Renderer, dragSessionOf { s with renderer := r } = dragSessionOf s :=
    fun _ => rfl
  have hl : ∀ b : Bool, dragSessionOf { s with leftMainLoop := b } = dragSessionOf s :=
    fun _ => rfl
  have hw : ∀ (b : Bool) (n : Nat),
      dragSessionOf { s with renderWireframe := b, redisplayPosted := n } = dragSessionOf s :=
    fun _ _ => rfl
  simp only [keyboardHandler, activateProvider, apply_ite dragSessionOf, hr, hl, hw, ite_self]

theorem keyboardHandler_session (key : Char) (x y : Int) (modifiers : Nat) (s : Viewer) :
    (keyboardHandler key x y modifiers s).dragInitialized = s.dragInitialized ∧
    (keyboardHandler key x y modifiers s).dragInitX = s.dragInitX ∧
    (keyboardHandler key x y modifiers s).dragInitY = s.dragInitY ∧
    (keyboardHandler key x y modifiers s).dragInitTarget = s.dragInitTarget := by
  have h := keyboardHandler_dragSessionOf key x y modifiers s
  simp only [dragSessionOf, Prod.mk.injEq] at h
  exact h

theorem dispatch_keeps_session (m : Libm) (e : Event) (s : Viewer)
    (hactive : s.dragInitialized = true) (he : e.isLeftUp = false) :
    (dispatch m e s).dragInitialized = true ∧ (dispatch m e s).dragInitX = s.dragInitX ∧
      (dispatch m e s).dragInitY = s.dragInitY ∧
      (dispatch m e s).dragInitTarget = s.dragInitTarget := by
  cases e with
  | reshape w hh => exact ⟨hactive, rfl, rfl, rfl⟩
  | mouse b st x y =>
    simp only [Event.isLeftUp, Bool.and_eq_false_imp, decide_eq_true_eq, decide_eq_false_iff_not]
      at he
    simp only [dispatch]
    unfold mouseHandler
    split_ifs with hb h1 h2
    · exact absurd h1.2 (by rw [hactive]; decide)
    · exact absurd h2.1 (he hb)
    · exact ⟨hactive, rfl, rfl, rfl⟩
    · exact ⟨hactive, rfl, rfl, rfl⟩
  | motion x y =>
    simp only [dispatch]
    rw [mouseMotion_of_active m x y s hactive]
    exact ⟨hactive, rfl, rfl, rfl⟩
  | wheel b d x y mods =>
    simp only [dispatch]
    unfold mouseWheelHandler
    simp only
    split_ifs <;> exact ⟨hactive, rfl, rfl, rfl⟩
  | keyboard k x y mods =>
    simp only [dispatch]
    have hk := keyboardHandler_session k x y mods s
    exact ⟨hk.1.trans hactive, hk.2.1, hk.2.2.1, hk.2.2.2⟩
  | special k x y mods =>
    simp only [dispatch]
    unfold specialHandler
    simp only
    split_ifs <;> exact ⟨hactive, rfl, rfl, rfl⟩

theorem run_keeps_session (m : Libm) (evs : List Event) :
    ∀ (s : Viewer), s.dragInitialized = true → (∀ e ∈ evs, e.isLeftUp = false) →
      (run m evs s).dragInitialized = true ∧ (run m evs s).dragInitX = s.dragInitX ∧
        (run m evs s).dragInitY = s.dragInitY ∧
        (run m evs s).dragInitTarget = s.dragInitTarget := by
  induction evs with
  | nil =>
    intro s hactive _
    exact ⟨hactive, rfl, rfl, rfl⟩
  | cons e es ih =>
    intro s hactive hno
    have h1 := dispatch_keeps_session m e s hactive (hno e (List.mem_cons_self e es))
    have h2 := ih (dispatch m e s) h1.1 (fun e2 he2 => hno e2 (List.mem_cons_of_mem e he2))
    simp only [run]
    exact ⟨h2.1, h2.2.1.trans h1.2.1, h2.2.2.1.trans h1.2.2.1, h2.2.2.2.trans h1.2.2.2⟩

theorem mouseHandler_down_active (x y : Int) (s : Viewer) :
    (mouseHandler GLUT_LEFT_BUTTON GLUT_DOWN x y s).dragInitialized = true := by
  unfold mouseHandler
  cases hd : s.dragInitialized <;> simp [GLUT_UP, GLUT_DOWN, hd]

theorem mouseHandler_down_of_active (x y : Int) (s : Viewer)
    (hactive : s.dragInitialized = true) :
    mouseHandler GLUT_LEFT_BUTTON GLUT_DOWN x y s = s := by
  simp [mouseHandler, hactive, GLUT_UP, GLUT_DOWN]

/-- C7. BeginDrag is ignored while dragging: take a left-button-down event at `(x1, y1)`,
then any events among which there is no left-button-up (motion, keys, wheel, other
buttons: the engine's target may change), then a second left-button-down at `(x2, y2)`.
After the second event the session is active and its origin (`dragInitX`, `dragInitY`,
`dragInitTarget`) is the one in place after the first. -/
theorem begin_drag_ignored_while_dragging (m : Libm) (s0 : Viewer) (x1 y1 x2 y2 : Int)
    (evs : List Event)
    (hno : ∀ e ∈ evs, e.isLeftUp = false) :
    (mouseHandler GLUT_LEFT_BUTTON GLUT_DOWN x2 y2
      (run m evs (mouseHandler GLUT_LEFT_BUTTON GLUT_DOWN x1 y1 s0))).dragInitialized = true ∧
    (mouseHandler GLUT_LEFT_BUTTON GLUT_DOWN x2 y2
      (run m evs (mouseHandler GLUT_LEFT_BUTTON GLUT_DOWN x1 y1 s0))).dragInitX
      = (mouseHandler GLUT_LEFT_BUTTON GLUT_DOWN x1 y1 s0).dragInitX ∧
    (mouseHandler GLUT_LEFT_BUTTON GLUT_DOWN x2 y2
      (run m evs (mouseHandler GLUT_LEFT_BUTTON GLUT_DOWN x1 y1 s0))).dragInitY
      = (mouseHandler GLUT_LEFT_BUTTON GLUT_DOWN x1 y1 s0).dragInitY ∧
    (mouseHandler GLUT_LEFT_BUTTON GLUT_DOWN x2 y2
      (run m evs (mouseHandler GLUT_LEFT_BUTTON GLUT_DOWN x1 y1 s0))).dragInitTarget
      = (mouseHandler GLUT_LEFT_BUTTON GLUT_DOWN x1 y1 s0).dragInitTarget := by
  have h := run_keeps_session m evs _ (mouseHandler_down_active x1 y1 s0) hno
  rw [mouseHandler_down_of_active x2 y2 _ h.1]
  exact h

/-- Witness of C7: from the start-up state, left button down at `(100, 100)`, then a motion
event and the pan key `d` (the engine's target changes), a right-button press, a wheel
event and one more left-button-down, then the left-button-down at `(300, 40)`: the origin
is still the position `(100, 100)` and the start-up target. -/
theorem begin_drag_ignored_while_dragging_witness :
    (∀ e ∈ [Event.motion 150 130, Event.keyboard 'd' 0 0 0, Event.mouse 2 GLUT_DOWN 7 7,
        Event.wheel 3 1 0 0 0, Event.mouse GLUT_LEFT_BUTTON GLUT_DOWN 9 9],
        e.isLeftUp = false) ∧
    (mouseHandler GLUT_LEFT_BUTTON GLUT_DOWN 300 40
      (run libmAtZero [Event.motion 150 130, Event.keyboard 'd' 0 0 0,
          Event.mouse 2 GLUT_DOWN 7 7, Event.wheel 3 1 0 0 0,
          Event.mouse GLUT_LEFT_BUTTON GLUT_DOWN 9 9]
        (mouseHandler GLUT_LEFT_BUTTON GLUT_DOWN 100 100 sampleViewer))).dragInitX = 100 ∧
    (mouseHandler GLUT_LEFT_BUTTON GLUT_DOWN 300 40
      (run libmAtZero [Event.motion 150 130, Event.keyboard 'd' 0 0 0,
          Event.mouse 2 GLUT_DOWN 7 7, Event.wheel 3 1 0 0 0,
          Event.mouse GLUT_LEFT_BUTTON GLUT_DOWN 9 9]
        (mouseHandler GLUT_LEFT_BUTTON GLUT_DOWN 100 100 sampleViewer))).dragInitTarget
      = ⟨1102430866, 704978668⟩ :=
  have hno : ∀ e ∈ [Event.motion 150 130, Event.keyboard 'd' 0 0 0,
      Event.mouse 2 GLUT_DOWN 7 7, Event.wheel 3 1 0 0 0,
      Event.mouse GLUT_LEFT_BUTTON GLUT_DOWN 9 9], e.isLeftUp = false := by
    intro e he
    simp only [List.mem_cons, List.mem_singleton, List.not_mem_nil, or_false] at he
    rcases he with rfl | rfl | rfl | rfl | rfl <;> rfl
  ⟨hno,
    (begin_drag_ignored_while_dragging libmAtZero sampleViewer 100 100 300 40 _ hno).2.1,
    (begin_drag_ignored_while_dragging libmAtZero sampleViewer 100 100 300 40 _ hno).2.2.2⟩

/-- C8 (amended). Zero displacement maps to zero: for every azimuth, every zoom level and
every non-zero on-screen tile size, a `mouseMotion` event at exactly the origin position
of the active drag session calls `setTarget` with the session's origin target (an
`int32_t` point). -/
theorem zero_displacement_keeps_origin (m : Libm) (s : Viewer)
    (hactive : s.dragInitialized = true)
    (hp : s.renderer.scaledTileSizeOnScreen ≠ 0)
    (hT : s.dragInitTarget.valid) :
    mouseMotion m s.dragInitX s.dragInitY s
      = { s with renderer := s.renderer.setTarget s.dragInitTarget } := by
  rw [mouseMotion_of_active m _ _ s hactive]
  have hmove : ∀ c sn : ℚ, movedTarget s.dragInitTarget (s.dragInitX - s.dragInitX)
      (s.dragInitY - s.dragInitY) c sn
      (fdiv (tileSize31 s.renderer.configuration.zoomBase) s.renderer.scaledTileSizeOnScreen)
      = s.dragInitTarget := by
    intro c sn
    obtain ⟨hx, hy⟩ := hT
    simp only [movedTarget, fdiv, if_neg hp, DoubleValue.mul, DoubleValue.toInt32, sub_self,
      Int.cast_zero, fl32_zero, zero_mul, add_zero, fl64_zero, toInt32_zero, sub_zero,
      wrap32_of_isInt32 hx, wrap32_of_isInt32 hy]
  rw [hmove]

/-- Witness of C8 (amended): drag session begun at `(100, 100)` at zoom level 12 with a
tile of 256 pixels, motion event at `(100, 100)`. -/
theorem zero_displacement_keeps_origin_witness :
    (draggingViewer 12 256).dragInitialized = true ∧
    (draggingViewer 12 256).renderer.scaledTileSizeOnScreen ≠ 0 ∧
    (draggingViewer 12 256).dragInitTarget.valid ∧
    mouseMotion libmAtZero (draggingViewer 12 256).dragInitX (draggingViewer 12 256).dragInitY
        (draggingViewer 12 256)
      = { draggingViewer 12 256 with
          renderer := (draggingViewer 12 256).renderer.setTarget
            (draggingViewer 12 256).dragInitTarget } :=
  have hp : (draggingViewer 12 256).renderer.scaledTileSizeOnScreen ≠ 0 := by
    show (256 : ℚ) ≠ 0
    norm_num
  ⟨rfl, hp, by decide,
    zero_displacement_keeps_origin libmAtZero (draggingViewer 12 256) rfl hp (by decide)⟩

/-- C8, counterexample. With the engine reporting tile size zero, a motion event at
exactly the origin `(100, 100)` of the drag session multiplies the zero offset by a scale
that is not finite: the product is a NaN, its conversion gives `INT_MIN`, and the target
set is `(-1045052782, -1442504980)`, not the session's origin target
`(1102430866, 704978668)`. -/
theorem zero_displacement_zero_size :
    (draggingViewer 12 0).dragInitX = 100 ∧ (draggingViewer 12 0).dragInitY = 100 ∧
    (mouseMotion libmAtZero 100 100 (draggingViewer 12 0)).renderer.configuration.target31
      = ⟨-1045052782, -1442504980⟩ ∧
    (mouseMotion libmAtZero 100 100 (draggingViewer 12 0)).renderer.configuration.target31
      ≠ (draggingViewer 12 0).dragInitTarget := by
  have hmove : (mouseMotion libmAtZero 100 100
      (draggingViewer 12 0)).renderer.configuration.target31
      = ⟨-1045052782, -1442504980⟩ := by
    rw [mouseMotion_of_active libmAtZero 100 100 _ rfl]
    have hdiv : fdiv (tileSize31 (draggingViewer 12 0).renderer.configuration.zoomBase)
        (draggingViewer 12 0).renderer.scaledTileSizeOnScreen = DoubleValue.notFinite := by
      have hp0 : (draggingViewer 12 0).renderer.scaledTileSizeOnScreen = 0 := rfl
      simp only [fdiv, if_pos hp0]
    have hT : (draggingViewer 12 0).dragInitTarget = ⟨1102430866, 704978668⟩ := rfl
    simp only [Renderer.setTarget, movedTarget, hdiv, hT, DoubleValue.mul,
      DoubleValue.toInt32]
    decide
  refine ⟨rfl, rfl, hmove, ?_⟩
  rw [hmove]
  decide


theorem wheelEvents_succ (n : Nat) (button dir x y : Int) (modifiers : Nat) (s : Viewer) :
    wheelEvents (n + 1) button dir x y modifiers s
      = mouseWheelHandler button dir x y modifiers (wheelEvents n button dir x y modifiers s) := by
  unfold wheelEvents
  exact Function.iterate_succ_apply' _ n s

theorem fl32_error (q : ℚ) : |fl32 q - q| ≤ |q| / 2 ^ 24 := roundToPrecision_error 24 q

theorem fl32_add_step_error (z c : ℚ) :
    |fl32 (z + fl32 c) - (z + c)| ≤ (|z + fl32 c| + |c|) / 2 ^ 24 := by
  have h1 := fl32_error (z + fl32 c)
  have h2 := fl32_error c
  have e : fl32 (z + fl32 c) - (z + c) = (fl32 (z + fl32 c) - (z + fl32 c)) + (fl32 c - c) := by
    ring
  rw [e, add_div]
  exact (abs_add _ _).trans (add_le_add h1 h2)

theorem fl32_sub_step_error (z c : ℚ) :
    |fl32 (z - fl32 c) - (z - c)| ≤ (|z - fl32 c| + |c|) / 2 ^ 24 := by
  have h := fl32_add_step_error z (-c)
  rw [fl32_neg, abs_neg] at h
  simpa [sub_eq_add_neg] using h

theorem fl32_hundredth : fl32 (1 / 100) = 5368709 / 536870912 := by
  have h := roundToPrecision_eq_of_near 24 (1 / 100) (-7) 10737418
    (by norm_num [abs_of_pos]) (by norm_num [abs_of_pos])
    (by rw [abs_lt]; constructor <;> norm_num)
  rw [fl32, h]
  norm_num

theorem wheel_up_zoom (button x y : Int) (s : Viewer) :
    (mouseWheelHandler button 1 x y 0 s).renderer.configuration.requestedZoom
      = fl32 (s.renderer.configuration.requestedZoom + fl32 (1 / 100)) := by
  simp [mouseWheelHandler, Renderer.setZoom, GLUT_ACTIVE_SHIFT]

/-- C9 (amended). Wheel zoom step: `n` wheel events are `n` successive calls of
`mouseWheelHandler`, with the engine storing the zoom it is given. An event with `dir > 0`
calls `setZoom` with the `float` nearest to `requestedZoom + step`, an event with `dir`
not `> 0` with the `float` nearest to `requestedZoom - step`, where `step` is the `float`
nearest to `0.01` (to `0.1` with shift held). Each event therefore changes the requested
zoom by `0.01` (by `0.1`) only up to rounding: the new zoom is within
`(|requestedZoom ± step| + 0.01) / 2^24` (with shift `0.1` in place of `0.01`) of the exact
decimal sum, and `n` events do not change it by exactly `n * 0.01`. -/
theorem wheel_zoom_step (s : Viewer) (n : Nat) (button dir x y : Int) (modifiers : Nat) :
    wheelEvents 0 button dir x y modifiers s = s ∧
    wheelEvents (n + 1) button dir x y modifiers s
      = mouseWheelHandler button dir x y modifiers
          (wheelEvents n button dir x y modifiers s) ∧
    (0 < dir → modifiers &&& GLUT_ACTIVE_SHIFT = 0 →
      mouseWheelHandler button dir x y modifiers s = { s with
        renderer := s.renderer.setZoom
          (fl32 (s.renderer.configuration.requestedZoom + fl32 (1 / 100))) } ∧
      |fl32 (s.renderer.configuration.requestedZoom + fl32 (1 / 100))
          - (s.renderer.configuration.requestedZoom + 1 / 100)|
        ≤ (|s.renderer.configuration.requestedZoom + fl32 (1 / 100)| + 1 / 100) / 2 ^ 24) ∧
    (0 < dir → modifiers &&& GLUT_ACTIVE_SHIFT ≠ 0 →
      mouseWheelHandler button dir x y modifiers s = { s with
        renderer := s.renderer.setZoom
          (fl32 (s.renderer.configuration.requestedZoom + fl32 (1 / 10))) } ∧
      |fl32 (s.renderer.configuration.requestedZoom + fl32 (1 / 10))
          - (s.renderer.configuration.requestedZoom + 1 / 10)|
        ≤ (|s.renderer.configuration.requestedZoom + fl32 (1 / 10)| + 1 / 10) / 2 ^ 24) ∧
    (¬ 0 < dir → modifiers &&& GLUT_ACTIVE_SHIFT = 0 →
      mouseWheelHandler button dir x y modifiers s = { s with
        renderer := s.renderer.setZoom
          (fl32 (s.renderer.configuration.requestedZoom - fl32 (1 / 100))) } ∧
      |fl32 (s.renderer.configuration.requestedZoom - fl32 (1 / 100))
          - (s.renderer.configuration.requestedZoom - 1 / 100)|
        ≤ (|s.renderer.configuration.requestedZoom - fl32 (1 / 100)| + 1 / 100) / 2 ^ 24) ∧
    (¬ 0 < dir → modifiers &&& GLUT_ACTIVE_SHIFT ≠ 0 →
      mouseWheelHandler button dir x y modifiers s = { s with
        renderer := s.renderer.setZoom
          (fl32 (s.renderer.configuration.requestedZoom - fl32 (1 / 10))) } ∧
      |fl32 (s.renderer.configuration.requestedZoom - fl32 (1 / 10))
          - (s.renderer.configuration.requestedZoom - 1 / 10)|
        ≤ (|s.renderer.configuration.requestedZoom - fl32 (1 / 10)| + 1 / 10) / 2 ^ 24) := by
  have a100 : |(1 / 100 : ℚ)| = 1 / 100 := abs_of_pos (by norm_num)
  have a10 : |(1 / 10 : ℚ)| = 1 / 10 := abs_of_pos (by norm_num)
  refine ⟨rfl, wheelEvents_succ n button dir x y modifiers s, ?_, ?_, ?_, ?_⟩
  · intro hd hs
    have hd2 : dir > 0 := hd
    refine ⟨by simp [mouseWheelHandler, hd2, hs], ?_⟩
    have h := fl32_add_step_error s.renderer.configuration.requestedZoom (1 / 100)
    rwa [a100] at h
  · intro hd hs
    have hd2 : dir > 0 := hd
    refine ⟨by simp [mouseWheelHandler, hd2, hs], ?_⟩
    have h := fl32_add_step_error s.renderer.configuration.requestedZoom (1 / 10)
    rwa [a10] at h
  · intro hd hs
    have hd2 : ¬ dir > 0 := hd
    refine ⟨by simp [mouseWheelHandler, hd2, hs], ?_⟩
    have h := fl32_sub_step_error s.renderer.configuration.requestedZoom (1 / 100)
    rwa [a100] at h
  · intro hd hs
    have hd2 : ¬ dir > 0 := hd
    refine ⟨by simp [mouseWheelHandler, hd2, hs], ?_⟩
    have h := fl32_sub_step_error s.renderer.configuration.requestedZoom (1 / 10)
    rwa [a10] at h

/-- Witness of C9 (amended): a wheel event upward without shift on the start-up state
(requested zoom `12.5`) calls `setZoom` with the `float` nearest to `12.5 + 0.01f`. -/
theorem wheel_zoom_step_witness :
    (0 : Int) < 1 ∧ 0 &&& GLUT_ACTIVE_SHIFT = 0 ∧
    mouseWheelHandler 3 1 400 300 0 sampleViewer = { sampleViewer with
      renderer := sampleViewer.renderer.setZoom
        (fl32 (sampleViewer.renderer.configuration.requestedZoom + fl32 (1 / 100))) } :=
  ⟨by decide, by decide,
    ((wheel_zoom_step sampleViewer 5 3 1 400 300 0).2.2.1 (by decide) (by decide)).1⟩

/-- C9, counterexample. Five wheel events upward without shift on the start-up state
(requested zoom `12.5`): the step is the `float` `0.01f = 5368709/536870912` and every sum
is rounded to `float`, so the requested zoom ends at `6579815/524288 = 12.55000114...`, an
increase of `0.0500011444...`, not of exactly `5 * 0.01 = 0.05`. -/
theorem wheel_zoom_not_exact :
    sampleViewer.renderer.configuration.requestedZoom = 25 / 2 ∧
    (wheelEvents 5 3 1 400 300 0 sampleViewer).renderer.configuration.requestedZoom
      = 6579815 / 524288 ∧
    (wheelEvents 5 3 1 400 300 0 sampleViewer).renderer.configuration.requestedZoom
      ≠ sampleViewer.renderer.configuration.requestedZoom + (5 : Nat) * (1 / 100) := by
  have hz : sampleViewer.renderer.configuration.requestedZoom = 25 / 2 := rfl
  have h1 : fl32 (25 / 2 + 5368709 / 536870912) = 6558843 / 524288 := by
    have h := roundToPrecision_eq_of_near 24 (25 / 2 + 5368709 / 536870912) 3 13117686
      (by norm_num [abs_of_pos]) (by norm_num [abs_of_pos])
      (by rw [abs_lt]; constructor <;> norm_num)
    rw [fl32, h]
    norm_num
  have h2 : fl32 (6558843 / 524288 + 5368709 / 536870912) = 3282043 / 262144 := by
    have h := roundToPrecision_eq_of_near 24 (6558843 / 524288 + 5368709 / 536870912) 3 13128172
      (by norm_num [abs_of_pos]) (by norm_num [abs_of_pos])
      (by rw [abs_lt]; constructor <;> norm_num)
    rw [fl32, h]
    norm_num
  have h3 : fl32 (3282043 / 262144 + 5368709 / 536870912) = 6569329 / 524288 := by
    have h := roundToPrecision_eq_of_near 24 (3282043 / 262144 + 5368709 / 536870912) 3 13138658
      (by norm_num [abs_of_pos]) (by norm_num [abs_of_pos])
      (by rw [abs_lt]; constructor <;> norm_num)
    rw [fl32, h]
    norm_num
  have h4 : fl32 (6569329 / 524288 + 5368709 / 536870912) = 1643643 / 131072 := by
    have h := roundToPrecision_eq_of_near 24 (6569329 / 524288 + 5368709 / 536870912) 3 13149144
      (by norm_num [abs_of_pos]) (by norm_num [abs_of_pos])
      (by rw [abs_lt]; constructor <;> norm_num)
    rw [fl32, h]
    norm_num
  have h5 : fl32 (1643643 / 131072 + 5368709 / 536870912) = 6579815 / 524288 := by
    have h := roundToPrecision_eq_of_near 24 (1643643 / 131072 + 5368709 / 536870912) 3 13159630
      (by norm_num [abs_of_pos]) (by norm_num [abs_of_pos])
      (by rw [abs_lt]; constructor <;> norm_num)
    rw [fl32, h]
    norm_num
  have h5e : wheelEvents 5 3 1 400 300 0 sampleViewer
      = mouseWheelHandler 3 1 400 300 0 (mouseWheelHandler 3 1 400 300 0
          (mouseWheelHandler 3 1 400 300 0 (mouseWheelHandler 3 1 400 300 0
            (mouseWheelHandler 3 1 400 300 0 sampleViewer)))) := rfl
  have hval : (wheelEvents 5 3 1 400 300 0 sampleViewer).renderer.configuration.requestedZoom
      = 6579815 / 524288 := by
    rw [h5e, wheel_up_zoom, wheel_up_zoom, wheel_up_zoom, wheel_up_zoom, wheel_up_zoom, hz,
      fl32_hundredth, h1, h2, h3, h4, h5]
  refine ⟨hz, hval, ?_⟩
  rw [hval, hz]
  norm_num

/-- C10. Unbinding a layer: for every layer and every state, `activateProvider(layer, 0)`
issues exactly the call `setTileProvider(layer, none)`; afterwards that layer has no
provider and every other layer has the provider it had. -/
theorem unbind_layer (s : Viewer) (layer : TileLayerId) :
    activateProvider layer 0 s = { s with renderer := s.renderer.setTileProvider layer none } ∧
    (activateProvider layer 0 s).renderer.calls
      = s.renderer.calls ++ [EngineCall.setTileProvider layer none] ∧
    (activateProvider layer 0 s).renderer.configuration.tileProviders layer = none ∧
    ∀ other, other ≠ layer →
      (activateProvider layer 0 s).renderer.configuration.tileProviders other
        = s.renderer.configuration.tileProviders other := by
  refine ⟨rfl, rfl, ?_, ?_⟩
  · simp [activateProvider, Renderer.setTileProvider]
  · intro other hne
    simp [activateProvider, Renderer.setTileProvider, hne]

/-- Witness of C10: at start-up the raster layer holds the provider `main` bound to it;
unbinding it leaves it empty and the overlay layer as it was. -/
theorem unbind_layer_witness :
    sampleViewer.renderer.configuration.tileProviders TileLayerId.RasterMap
      = some TileProvider.CycleMap ∧
    (activateProvider TileLayerId.RasterMap 0 sampleViewer).renderer.configuration.tileProviders
      TileLayerId.RasterMap = none ∧
    TileLayerId.MapOverlay0 ≠ TileLayerId.RasterMap ∧
    (activateProvider TileLayerId.RasterMap 0 sampleViewer).renderer.configuration.tileProviders
      TileLayerId.MapOverlay0
      = sampleViewer.renderer.configuration.tileProviders TileLayerId.MapOverlay0 :=
  ⟨rfl, (unbind_layer sampleViewer TileLayerId.RasterMap).2.2.1, by decide,
    (unbind_layer sampleViewer TileLayerId.RasterMap).2.2.2 TileLayerId.MapOverlay0 (by decide)⟩

/-- C11. Exclusive rebinding: for every layer and every state, `activateProvider(layer, 1)`
followed by `activateProvider(layer, 2)` issues the two `setTileProvider` calls in that
order and leaves exactly the provider of the second call (the one slot 2 constructs) bound
to the layer: the provider of the first call is no longer bound to it, and every other
layer has the provider it had. -/
theorem exclusive_rebinding (s : Viewer) (layer : TileLayerId) :
    (activateProvider layer 1 s).renderer.configuration.tileProviders layer
      = some TileProvider.CycleMap ∧
    (activateProvider layer 2 (activateProvider layer 1 s)).renderer.configuration.tileProviders
      layer = some TileProvider.Mapnik ∧
    (activateProvider layer 2 (activateProvider layer 1 s)).renderer.configuration.tileProviders
      layer ≠ some TileProvider.CycleMap ∧
    (activateProvider layer 2 (activateProvider layer 1 s)).renderer.calls
      = s.renderer.calls ++ [EngineCall.setTileProvider layer (some TileProvider.CycleMap),
          EngineCall.setTileProvider layer (some TileProvider.Mapnik)] ∧
    ∀ other, other ≠ layer →
      (activateProvider layer 2 (activateProvider layer 1 s)).renderer.configuration.tileProviders
        other = s.renderer.configuration.tileProviders other := by
  refine ⟨?_, ?_, ?_, ?_, ?_⟩
  · simp [activateProvider, Renderer.setTileProvider]
  · simp [activateProvider, Renderer.setTileProvider]
  · simp [activateProvider, Renderer.setTileProvider]
  · simp [activateProvider, Renderer.setTileProvider]
  · intro other hne
    simp [activateProvider, Renderer.setTileProvider, hne]

/-- Witness of C11: on the start-up state the overlay layer is rebound (slot 1, then
slot 2) and the raster layer keeps the provider `main` gave it. -/
theorem exclusive_rebinding_witness :
    (activateProvider TileLayerId.MapOverlay0 2
      (activateProvider TileLayerId.MapOverlay0 1 sampleViewer)).renderer.configuration.tileProviders
      TileLayerId.MapOverlay0 = some TileProvider.Mapnik ∧
    TileLayerId.RasterMap ≠ TileLayerId.MapOverlay0 ∧
    (activateProvider TileLayerId.MapOverlay0 2
      (activateProvider TileLayerId.MapOverlay0 1 sampleViewer)).renderer.configuration.tileProviders
      TileLayerId.RasterMap
      = sampleViewer.renderer.configuration.tileProviders TileLayerId.RasterMap :=
  ⟨(exclusive_rebinding sampleViewer TileLayerId.MapOverlay0).2.1, by decide,
    (exclusive_rebinding sampleViewer TileLayerId.MapOverlay0).2.2.2.2 TileLayerId.RasterMap
      (by decide)⟩

/-- C12, the code at the failing input. The digit key `1` (on the raster layer without
alt, on the overlay with alt) installs the provider of `createCycleMapProvider` and the key
`2` the provider of `createMapnikProvider`, while the legend `displayHandler` draws reads
"1 - Mapnik" and "2 - CycleMap": the lines that would name the installed providers are not
in the legend. -/
theorem legend_names_other_provider (s : Viewer) (x y : Int) (modifiers : Nat) :
    (keyboardHandler '1' x y modifiers s).renderer.configuration.tileProviders
      (digitLayer modifiers) = some TileProvider.CycleMap ∧
    (keyboardHandler '2' x y modifiers s).renderer.configuration.tileProviders
      (digitLayer modifiers) = some TileProvider.Mapnik ∧
    digitLayer 0 = TileLayerId.RasterMap ∧
    digitLayer GLUT_ACTIVE_ALT = TileLayerId.MapOverlay0 ∧
    (16 * 4, legendLine '1' TileProvider.Mapnik) ∈ tileProviderLegend ∧
    (16 * 3, legendLine '2' TileProvider.CycleMap) ∈ tileProviderLegend ∧
    legendLine '1' TileProvider.CycleMap ∉ tileProviderLegend.map Prod.snd ∧
    legendLine '2' TileProvider.Mapnik ∉ tileProviderLegend.map Prod.snd := by
  refine ⟨?_, ?_, by decide, by decide, by decide, by decide, by decide, by decide⟩
  · simp [keyboardHandler, activateProvider, Renderer.setTileProvider]
  · simp [keyboardHandler, activateProvider, Renderer.setTileProvider]

theorem specPanStep_range (z : Int) (h1 : 1 ≤ z) (h31 : z ≤ 31) :
    (0 ≤ specPanStep z 50 ∧ specPanStep z 50 < 2147483648) ∧
    (0 ≤ specPanStep z 10 ∧ specPanStep z 10 < 2147483648) := by
  interval_cases z <;> decide

theorem specPanStep_eq_zero_iff (z : Int) (h1 : 1 ≤ z) (h31 : z ≤ 31) :
    (specPanStep z 50 = 0 ↔ 26 ≤ z) ∧ (specPanStep z 10 = 0 ↔ 28 ≤ z) := by
  interval_cases z <;> decide

theorem wrap32_sub_ne (v d : Int) (hv : isInt32 v) (h0 : 0 < d) (h1 : d < 2147483648) :
    wrap32 (v - d) ≠ v := by
  unfold isInt32 at hv
  unfold wrap32
  omega

theorem wrap32_add_ne (v d : Int) (hv : isInt32 v) (h0 : 0 < d) (h1 : d < 2147483648) :
    wrap32 (v + d) ≠ v := by
  unfold isInt32 at hv
  unfold wrap32
  omega

theorem panKey_state (s : Viewer) (x y : Int) (modifiers : Nat) (z : Int)
    (hz : truncQ s.renderer.configuration.requestedZoom = z) (h1 : 1 ≤ z) (h31 : z ≤ 31) :
    keyboardHandler 'w' x y modifiers s = { s with
      renderer := s.renderer.setTarget
        ⟨s.renderer.configuration.target31.x,
         wrap32 (s.renderer.configuration.target31.y - specPanStep z 50)⟩ } ∧
    keyboardHandler 's' x y modifiers s = { s with
      renderer := s.renderer.setTarget
        ⟨s.renderer.configuration.target31.x,
         wrap32 (s.renderer.configuration.target31.y + specPanStep z 50)⟩ } ∧
    keyboardHandler 'a' x y modifiers s = { s with
      renderer := s.renderer.setTarget
        ⟨wrap32 (s.renderer.configuration.target31.x - specPanStep z 50),
         s.renderer.configuration.target31.y⟩ } ∧
    keyboardHandler 'd' x y modifiers s = { s with
      renderer := s.renderer.setTarget
        ⟨wrap32 (s.renderer.configuration.target31.x + specPanStep z 50),
         s.renderer.configuration.target31.y⟩ } ∧
    keyboardHandler 'W' x y modifiers s = { s with
      renderer := s.renderer.setTarget
        ⟨s.renderer.configuration.target31.x,
         wrap32 (s.renderer.configuration.target31.y - specPanStep z 10)⟩ } ∧
    keyboardHandler 'S' x y modifiers s = { s with
      renderer := s.renderer.setTarget
        ⟨s.renderer.configuration.target31.x,
         wrap32 (s.renderer.configuration.target31.y + specPanStep z 10)⟩ } ∧
    keyboardHandler 'A' x y modifiers s = { s with
      renderer := s.renderer.setTarget
        ⟨wrap32 (s.renderer.configuration.target31.x - specPanStep z 10),
         s.renderer.configuration.target31.y⟩ } ∧
    keyboardHandler 'D' x y modifiers s = { s with
      renderer := s.renderer.setTarget
        ⟨wrap32 (s.renderer.configuration.target31.x + specPanStep z 10),
         s.renderer.configuration.target31.y⟩ } := by
  have hq := toInt32_of_level _ z hz h1 h31
  have e50 := wasdStep_div z 50 h1 h31 (by norm_num)
  have e10 := wasdStep_div z 10 h1 h31 (by norm_num)
  refine ⟨?_, ?_, ?_, ?_, ?_, ?_, ?_, ?_⟩ <;>
    simp [keyboardHandler, hq, e50, e10]

/-- C13. Pan step degenerates at high zoom: when the integer part `z` of the requested
zoom is in `1..31`, the pan amounts `wasdStep / 50` and `wasdStep / 10` of `keyboardHandler`
are `(1 << (31 - z)) / 50` and `(1 << (31 - z)) / 10`, both non-negative; the first is zero
exactly when `z >= 26` and the second exactly when `z >= 28`. With a zero amount the key
press is the call of `setTarget` with the current target (an `int32_t` point) unchanged;
for smaller `z` the amount is strictly positive and the target passed differs from the
current one. -/
theorem pan_step_degenerates (s : Viewer) (x y : Int) (modifiers : Nat) (z : Int)
    (hz : truncQ s.renderer.configuration.requestedZoom = z) (h1 : 1 ≤ z) (h31 : z ≤ 31)
    (hT : s.renderer.configuration.target31.valid) :
    Int.tdiv (wasdStep s.renderer.configuration.requestedZoom) 50 = specPanStep z 50 ∧
    Int.tdiv (wasdStep s.renderer.configuration.requestedZoom) 10 = specPanStep z 10 ∧
    0 ≤ specPanStep z 50 ∧ 0 ≤ specPanStep z 10 ∧
    (specPanStep z 50 = 0 ↔ 26 ≤ z) ∧ (specPanStep z 10 = 0 ↔ 28 ≤ z) ∧
    (∀ key ∈ ['w', 's', 'a', 'd'],
      (26 ≤ z → keyboardHandler key x y modifiers s
        = { s with renderer := s.renderer.setTarget s.renderer.configuration.target31 }) ∧
      (z < 26 → 0 < specPanStep z 50 ∧
        (keyboardHandler key x y modifiers s).renderer.configuration.target31
          ≠ s.renderer.configuration.target31)) ∧
    (∀ key ∈ ['W', 'S', 'A', 'D'],
      (28 ≤ z → keyboardHandler key x y modifiers s
        = { s with renderer := s.renderer.setTarget s.renderer.configuration.target31 }) ∧
      (z < 28 → 0 < specPanStep z 10 ∧
        (keyboardHandler key x y modifiers s).renderer.configuration.target31
          ≠ s.renderer.configuration.target31)) := by
  have hq := toInt32_of_level _ z hz h1 h31
  have hr := specPanStep_range z h1 h31
  have hzero := specPanStep_eq_zero_iff z h1 h31
  have hk := panKey_state s x y modifiers z hz h1 h31
  obtain ⟨hx, hy⟩ := hT
  have hpos50 : z < 26 → 0 < specPanStep z 50 := fun h =>
    lt_of_le_of_ne hr.1.1 (fun e => absurd (hzero.1.mp e.symm) (by omega))
  have hpos10 : z < 28 → 0 < specPanStep z 10 := fun h =>
    lt_of_le_of_ne hr.2.1 (fun e => absurd (hzero.2.mp e.symm) (by omega))
  have hsame : ∀ (p : PointI), p.x = s.renderer.configuration.target31.x →
      p.y = s.renderer.configuration.target31.y → p = s.renderer.configuration.target31 := by
    intro p hpx hpy
    cases p
    cases hc : s.renderer.configuration.target31
    simp_all
  have hys : (⟨s.renderer.configuration.target31.x,
      wrap32 (s.renderer.configuration.target31.y - 0)⟩ : PointI)
      = s.renderer.configuration.target31 :=
    hsame _ rfl (by simp [wrap32_of_isInt32 hy])
  have hya : (⟨s.renderer.configuration.target31.x,
      wrap32 (s.renderer.configuration.target31.y + 0)⟩ : PointI)
      = s.renderer.configuration.target31 :=
    hsame _ rfl (by simp [wrap32_of_isInt32 hy])
  have hxs : (⟨wrap32 (s.renderer.configuration.target31.x - 0),
      s.renderer.configuration.target31.y⟩ : PointI)
      = s.renderer.configuration.target31 :=
    hsame _ (by simp [wrap32_of_isInt32 hx]) rfl
  have hxa : (⟨wrap32 (s.renderer.configuration.target31.x + 0),
      s.renderer.configuration.target31.y⟩ : PointI)
      = s.renderer.configuration.target31 :=
    hsame _ (by simp [wrap32_of_isInt32 hx]) rfl
  refine ⟨?_, ?_, hr.1.1, hr.2.1, hzero.1, hzero.2, ?_, ?_⟩
  · rw [wasdStep, hq]; exact wasdStep_div z 50 h1 h31 (by norm_num)
  · rw [wasdStep, hq]; exact wasdStep_div z 10 h1 h31 (by norm_num)
  · intro key hkey
    simp only [List.mem_cons, List.mem_singleton, List.not_mem_nil, or_false] at hkey
    rcases hkey with rfl | rfl | rfl | rfl
    · refine ⟨fun h => ?_, fun h => ⟨hpos50 h, fun e => ?_⟩⟩
      · rw [hk.1, hzero.1.mpr h, hys]
      · rw [hk.1] at e
        exact wrap32_sub_ne _ _ hy (hpos50 h) hr.1.2 (congrArg PointI.y e)
    · refine ⟨fun h => ?_, fun h => ⟨hpos50 h, fun e => ?_⟩⟩
      · rw [hk.2.1, hzero.1.mpr h, hya]
      · rw [hk.2.1] at e
        exact wrap32_add_ne _ _ hy (hpos50 h) hr.1.2 (congrArg PointI.y e)
    · refine ⟨fun h => ?_, fun h => ⟨hpos50 h, fun e => ?_⟩⟩
      · rw [hk.2.2.1, hzero.1.mpr h, hxs]
      · rw [hk.2.2.1] at e
        exact wrap32_sub_ne _ _ hx (hpos50 h) hr.1.2 (congrArg PointI.x e)
    · refine ⟨fun h => ?_, fun h => ⟨hpos50 h, fun e => ?_⟩⟩
      · rw [hk.2.2.2.1, hzero.1.mpr h, hxa]
      · rw [hk.2.2.2.1] at e
        exact wrap32_add_ne _ _ hx (hpos50 h) hr.1.2 (congrArg PointI.x e)
  · intro key hkey
    simp only [List.mem_cons, List.mem_singleton, List.not_mem_nil, or_false] at hkey
    rcases hkey with rfl | rfl | rfl | rfl
    · refine ⟨fun h => ?_, fun h => ⟨hpos10 h, fun e => ?_⟩⟩
      · rw [hk.2.2.2.2.1, hzero.2.mpr h, hys]
      · rw [hk.2.2.2.2.1] at e
        exact wrap32_sub_ne _ _ hy (hpos10 h) hr.2.2 (congrArg PointI.y e)
    · refine ⟨fun h => ?_, fun h => ⟨hpos10 h, fun e => ?_⟩⟩
      · rw [hk.2.2.2.2.2.1, hzero.2.mpr h, hya]
      · rw [hk.2.2.2.2.2.1] at e
        exact wrap32_add_ne _ _ hy (hpos10 h) hr.2.2 (congrArg PointI.y e)
    · refine ⟨fun h => ?_, fun h => ⟨hpos10 h, fun e => ?_⟩⟩
      · rw [hk.2.2.2.2.2.2.1, hzero.2.mpr h, hxs]
      · rw [hk.2.2.2.2.2.2.1] at e
        exact wrap32_sub_ne _ _ hx (hpos10 h) hr.2.2 (congrArg PointI.x e)
    · refine ⟨fun h => ?_, fun h => ⟨hpos10 h, fun e => ?_⟩⟩
      · rw [hk.2.2.2.2.2.2.2, hzero.2.mpr h, hxa]
      · rw [hk.2.2.2.2.2.2.2] at e
        exact wrap32_add_ne _ _ hx (hpos10 h) hr.2.2 (congrArg PointI.x e)

theorem viewerWith_zoom_27 :
    truncQ (viewerWith 27 256).renderer.configuration.requestedZoom = 27 := by
  show truncQ ((27 : Int) : ℚ) = 27
  exact truncQ_eq_of_nonneg (by norm_num) (by norm_num) (by norm_num)

/-- Witness of C13: zoom 27 on the start-up target. The lowercase amount `16 / 50` is zero
and `w` passes the target on unchanged; the uppercase amount `16 / 10` is positive and `W`
passes on another target. -/
theorem pan_step_degenerates_witness :
    truncQ (viewerWith 27 256).renderer.configuration.requestedZoom = 27 ∧
    (1 : Int) ≤ 27 ∧ (27 : Int) ≤ 31 ∧
    (viewerWith 27 256).renderer.configuration.target31.valid ∧
    specPanStep 27 50 = 0 ∧
    keyboardHandler 'w' 0 0 0 (viewerWith 27 256)
      = { viewerWith 27 256 with
          renderer := (viewerWith 27 256).renderer.setTarget
            (viewerWith 27 256).renderer.configuration.target31 } ∧
    0 < specPanStep 27 10 ∧
    (keyboardHandler 'W' 0 0 0 (viewerWith 27 256)).renderer.configuration.target31
      ≠ (viewerWith 27 256).renderer.configuration.target31 :=
  have h := pan_step_degenerates (viewerWith 27 256) 0 0 0 27 viewerWith_zoom_27
    (by decide) (by decide) (by decide)
  ⟨viewerWith_zoom_27, by decide, by decide, by decide,
    h.2.2.2.2.1.mpr (by decide),
    (h.2.2.2.2.2.2.1 'w' (by simp)).1 (by decide),
    ((h.2.2.2.2.2.2.2 'W' (by simp)).2 (by decide)).1,
    ((h.2.2.2.2.2.2.2 'W' (by simp)).2 (by decide)).2⟩

end MapViewer
